import Mathlib

/-!
Verification of the clockwork-vm core against its specification.

The development shallowly embeds the canonical engine of the repository
(src/runtime.rs together with src/instruction.rs, src/memory.rs,
src/registers.rs, src/error.rs and src/util.rs) into Lean:

* `Word` (Rust `i64`) is modelled as `Int`; where i64 overflow matters the
  result is wrapped explicitly with `wrap64` (release-mode two's-complement
  wrapping); i64 division overflow (`i64::MIN / -1`), which panics in Rust in
  every profile, is modelled as a distinct `panic` outcome, as are the
  `.unwrap()` / `.expect()` calls of the source.
* Rust `as u8` / `as i16` casts are modelled by `toU8` / `toI16`; bit masks
  `x & (2^k - 1)` on i64 coincide with `x.emod (2^k)` and are written that
  way, and i64 `>>` is the arithmetic shift `Int.shiftRight`.
* Fallible operations return `Except`; handler outcomes are collected in
  `StepRes` which keeps the error value that `perform_next_instr` in the
  source immediately collapses with `.is_ok()`.
-/

namespace Clockwork

/-- Machine word: Rust i64, both data values and addresses (src/runtime.rs line 1). -/
abbrev Word := Int

/-- Two's-complement wrapping of an Int into the i64 range. -/
def wrap64 (x : Int) : Int := (x + 2 ^ 63) % 2 ^ 64 - 2 ^ 63

/-- Rust `as u8`: the low 8 bits of an i64 value, as a natural number. -/
def toU8 (x : Int) : Nat := (x % 256).toNat

/-- Rust `as i16`: the low 16 bits of an i64 value, sign-extended. -/
def toI16 (x : Int) : Int := (x + 2 ^ 15) % 2 ^ 16 - 2 ^ 15

/-- Errors of src/error.rs. -/
inductive Error
| IllegalOpcode (instruction : Word) (instr_pointer : Word)
| InvalidRegister (number : Nat) (instr_pointer : Word)
| DivisionByZero (instr_pointer : Word)
| HaltSignal (instr_pointer : Word)
deriving DecidableEq, Repr

/-- The instr_pointer payload carried by an error of src/error.rs. -/
def Error.ip : Error → Word
| .IllegalOpcode _ p => p
| .InvalidRegister _ p => p
| .DivisionByZero p => p
| .HaltSignal p => p

/-- Errors of the memory component (the local Error enum of src/memory.rs). -/
inductive MemError
| InvalidAddress (requested_address : Word) (upper_bound : Nat)
| OutOfMemory
deriving DecidableEq, Repr

/-- The `pair_result` helper of src/util.rs. -/
def pair_result {α β ε : Type} (res1 : Except ε α) (res2 : Except ε β) :
    Except ε (α × β) :=
  res1.bind fun v1 => res2.bind fun v2 => .ok (v1, v2)

/-- The register file of src/registers.rs. -/
structure Registers where
  data0 : Word
  data1 : Word
  data2 : Word
  data3 : Word
  instr_pointer : Word
deriving DecidableEq, Repr

/-- Registers::default(): all fields zero. -/
def Registers.default : Registers :=
  { data0 := 0, data1 := 0, data2 := 0, data3 := 0, instr_pointer := 0 }

/-- Registers::write of src/registers.rs: indices 0..3 are writable. -/
def Registers.write (regs : Registers) (index : Nat) (data : Word) :
    Except Error Registers :=
  match index with
  | 0 => .ok { regs with data0 := data }
  | 1 => .ok { regs with data1 := data }
  | 2 => .ok { regs with data2 := data }
  | 3 => .ok { regs with data3 := data }
  | _ => .error (.InvalidRegister index regs.instr_pointer)

/-- Registers::read of src/registers.rs: indices 0..4 are readable. -/
def Registers.read (regs : Registers) (index : Nat) : Except Error Word :=
  match index with
  | 0 => .ok regs.data0
  | 1 => .ok regs.data1
  | 2 => .ok regs.data2
  | 3 => .ok regs.data3
  | 4 => .ok regs.instr_pointer
  | _ => .error (.InvalidRegister index regs.instr_pointer)

deriving instance DecidableEq for Except

/-- Total register update used to state the write lemmas: on 0..3 it updates
the addressed data register, elsewhere it is the identity (Registers.write
rejects those indices). -/
def Registers.set (regs : Registers) (index : Nat) (data : Word) : Registers :=
  match index with
  | 0 => { regs with data0 := data }
  | 1 => { regs with data1 := data }
  | 2 => { regs with data2 := data }
  | 3 => { regs with data3 := data }
  | _ => regs

/-- The flat memory of src/memory.rs: a vector of words. -/
structure Memory where
  buffer : List Word
deriving DecidableEq, Repr

/-- Memory::read of src/memory.rs: `address < 0 || address as usize >= buffer.len()`
is rejected with InvalidAddress, otherwise the cell is returned. The bounds
check is phrased through `List.get?` so that a 262144-word default memory
evaluates without a 262144-deep recursion; `Memory.read_eq` proves this is
exactly the source's explicit length comparison. -/
def Memory.read (m : Memory) (address : Word) : Except MemError Word :=
  if address < 0 then .error (.InvalidAddress address m.buffer.length)
  else
    match m.buffer.get? address.toNat with
    | some v => .ok v
    | none => .error (.InvalidAddress address m.buffer.length)

/-- Memory::write of src/memory.rs: same bounds discipline as read; on success
the updated memory is returned (the source mutates in place). Phrased through
`List.get?` for the same reason as `Memory.read`; see `Memory.write_eq`. -/
def Memory.write (m : Memory) (address : Word) (data : Word) :
    Except MemError Memory :=
  if address < 0 then .error (.InvalidAddress address m.buffer.length)
  else
    match m.buffer.get? address.toNat with
    | some _ => .ok ⟨m.buffer.set address.toNat data⟩
    | none => .error (.InvalidAddress address m.buffer.length)

/-- Memory::new_with_size of src/memory.rs: `size_bytes / 8` zeroed words. -/
def Memory.new_with_size (size_bytes : Nat) : Memory :=
  ⟨List.replicate (size_bytes / 8) 0⟩

/-- Memory::default(): 2097152 bytes, i.e. 262144 words. -/
def Memory.mkDefault : Memory := Memory.new_with_size 2097152

/-- The decoded instruction set of src/instruction.rs. -/
inductive Instruction
| Illegal
| Halt
| Load (value : Word) (dest_reg : Nat)
| LoadMem (src_addr : Word) (dest_reg : Nat)
| StoreMem (src_reg : Nat) (dest_addr : Word)
| Copy (src : Nat) (dest : Nat)
| Add (src1 : Nat) (src2 : Nat) (dest : Nat)
| Sub (src1 : Nat) (src2 : Nat) (dest : Nat)
| Mult (src1 : Nat) (src2 : Nat) (dest : Nat)
| Div (src1 : Nat) (src2 : Nat) (quot_dest : Nat) (rem_dest : Nat)
| Cmp (src1 : Nat) (src2 : Nat)
| Jmp (src : Nat)
| Jz (src : Nat)
| Jnz (src : Nat)
| Jgt (src : Nat)
| Jlt (src : Nat)
| Inc (dest : Nat)
| Dec (dest : Nat)
deriving DecidableEq, Repr

namespace Instruction

/-- Instruction::parse_load: value is the low 46 bits of the operand region
(`operands & LOAD_RANDS_MASK`), dest_reg the bits from offset 46 as u8. -/
def parse_load (operands : Word) : Instruction :=
  .Load (operands % 2 ^ 46) (toU8 (Int.shiftRight operands 46))

/-- Instruction::parse_copy: src at offset 0, dest at offset 27, both as u8. -/
def parse_copy (operands : Word) : Instruction :=
  .Copy (toU8 operands) (toU8 (Int.shiftRight operands 27))

/-- Instruction::parse_add: src1 at 0, src2 at 18, dest at 36, as u8. -/
def parse_add (operands : Word) : Instruction :=
  .Add (toU8 operands) (toU8 (Int.shiftRight operands 18))
    (toU8 (Int.shiftRight operands 36))

/-- Instruction::parse_sub: same shape as parse_add. -/
def parse_sub (operands : Word) : Instruction :=
  .Sub (toU8 operands) (toU8 (Int.shiftRight operands 18))
    (toU8 (Int.shiftRight operands 36))

/-- Instruction::parse_mult: same shape as parse_add. -/
def parse_mult (operands : Word) : Instruction :=
  .Mult (toU8 operands) (toU8 (Int.shiftRight operands 18))
    (toU8 (Int.shiftRight operands 36))

/-- Instruction::parse_div: src1 at 0, src2 at 13, quot at 26, rem at 39, as u8. -/
def parse_div (operands : Word) : Instruction :=
  .Div (toU8 operands) (toU8 (Int.shiftRight operands 13))
    (toU8 (Int.shiftRight operands 26)) (toU8 (Int.shiftRight operands 39))

/-- Instruction::parse_cmp: src1 at 0, src2 at 27, as u8. -/
def parse_cmp (operands : Word) : Instruction :=
  .Cmp (toU8 operands) (toU8 (Int.shiftRight operands 27))

/-- Instruction::parse_jmp. -/
def parse_jmp (operands : Word) : Instruction := .Jmp (toU8 operands)

/-- Instruction::parse_jz. -/
def parse_jz (operands : Word) : Instruction := .Jz (toU8 operands)

/-- Instruction::parse_jnz. -/
def parse_jnz (operands : Word) : Instruction := .Jnz (toU8 operands)

/-- Instruction::parse_jgt. -/
def parse_jgt (operands : Word) : Instruction := .Jgt (toU8 operands)

/-- Instruction::parse_jlt. -/
def parse_jlt (operands : Word) : Instruction := .Jlt (toU8 operands)

/-- Instruction::parse_inc. -/
def parse_inc (operands : Word) : Instruction := .Inc (toU8 operands)

/-- Instruction::parse_dec. -/
def parse_dec (operands : Word) : Instruction := .Dec (toU8 operands)

/-- Instruction::parse_load_mem: the source reads `src_addr` through an
`as i16` cast (sign-extending the low 16 bits of the operand region; the
function carries a TODO acknowledging the missing 27-bit mask) and dest_reg
from offset 27 as u8. -/
def parse_load_mem (operands : Word) : Instruction :=
  .LoadMem (toI16 operands) (toU8 (Int.shiftRight operands 27))

/-- Instruction::parse_store_mem: src_reg at offset 0 as u8, dest_addr is the
bits from offset 27 kept as a Word. -/
def parse_store_mem (operands : Word) : Instruction :=
  .StoreMem (toU8 operands) (Int.shiftRight operands 27)

/-- The From Word for Instruction impl of src/instruction.rs: opcode is the
low 10 bits (`instruction & OPCODE_MASK`), operands the arithmetic shift by
OPCODE_OFFSET; every opcode not in 0..16 decodes to Illegal. -/
def fromWord (instruction : Word) : Instruction :=
  let opcode := instruction % 1024
  let operands := Int.shiftRight instruction 10
  if opcode = 0 then .Halt
  else if opcode = 1 then parse_load operands
  else if opcode = 2 then parse_add operands
  else if opcode = 3 then parse_sub operands
  else if opcode = 4 then parse_mult operands
  else if opcode = 5 then parse_cmp operands
  else if opcode = 6 then parse_jmp operands
  else if opcode = 7 then parse_jz operands
  else if opcode = 8 then parse_jnz operands
  else if opcode = 9 then parse_jgt operands
  else if opcode = 10 then parse_jlt operands
  else if opcode = 11 then parse_div operands
  else if opcode = 12 then parse_copy operands
  else if opcode = 13 then parse_inc operands
  else if opcode = 14 then parse_dec operands
  else if opcode = 15 then parse_load_mem operands
  else if opcode = 16 then parse_store_mem operands
  else .Illegal

end Instruction

/-- The engine state of src/runtime.rs (struct Runtime). -/
structure Runtime where
  registers : Registers
  flag_zero : Bool
  flag_carry : Bool
  memory : Memory
  running : Bool
deriving DecidableEq, Repr

/-- Outcome of dispatching one decoded instruction. The source's handlers
return `Result<()>` mutating the engine in place; here the (possibly
partially mutated) engine travels with the outcome. `panic` models the
`.unwrap()` calls and the i64 division overflow, `halted` the Halt arm of
`perform_next_instr` that returns `false` directly. -/
inductive StepRes
| ok (rt : Runtime)
| halted (rt : Runtime)
| err (e : Error) (rt : Runtime)
| panic
deriving DecidableEq, Repr

namespace Runtime

/-- Runtime::handle_illegal_opcode: builds IllegalOpcode from a fresh memory
read at the current (already incremented) instruction pointer, unwrapping
the read. -/
def handle_illegal_opcode (rt : Runtime) : StepRes :=
  match rt.memory.read rt.registers.instr_pointer with
  | .ok w => .err (.IllegalOpcode w rt.registers.instr_pointer) rt
  | .error _ => .panic

/-- Runtime::perform_load. -/
def perform_load (rt : Runtime) (value : Word) (dest_reg : Nat) : StepRes :=
  match rt.registers.write dest_reg value with
  | .ok regs => .ok { rt with registers := regs }
  | .error e => .err e rt

/-- Runtime::perform_copy. -/
def perform_copy (rt : Runtime) (src : Nat) (dest : Nat) : StepRes :=
  match rt.registers.read src with
  | .error e => .err e rt
  | .ok value =>
    match rt.registers.write dest value with
    | .ok regs => .ok { rt with registers := regs }
    | .error e => .err e rt

/-- Runtime::perform_add; the i64 sum wraps (release semantics). -/
def perform_add (rt : Runtime) (src1 src2 dest : Nat) : StepRes :=
  match pair_result (rt.registers.read src1) (rt.registers.read src2) with
  | .error e => .err e rt
  | .ok (v1, v2) =>
    match rt.registers.write dest (wrap64 (v1 + v2)) with
    | .ok regs => .ok { rt with registers := regs }
    | .error e => .err e rt

/-- Runtime::perform_sub; the i64 difference wraps. -/
def perform_sub (rt : Runtime) (src1 src2 dest : Nat) : StepRes :=
  match pair_result (rt.registers.read src1) (rt.registers.read src2) with
  | .error e => .err e rt
  | .ok (v1, v2) =>
    match rt.registers.write dest (wrap64 (v1 - v2)) with
    | .ok regs => .ok { rt with registers := regs }
    | .error e => .err e rt

/-- Runtime::perform_mult; the i64 product wraps. -/
def perform_mult (rt : Runtime) (src1 src2 dest : Nat) : StepRes :=
  match pair_result (rt.registers.read src1) (rt.registers.read src2) with
  | .error e => .err e rt
  | .ok (v1, v2) =>
    match rt.registers.write dest (wrap64 (v1 * v2)) with
    | .ok regs => .ok { rt with registers := regs }
    | .error e => .err e rt

/-- Runtime::perform_div: zero divisor raises DivisionByZero before any
write; Rust i64 division overflow (MIN / -1) panics in every build profile;
otherwise the truncated quotient is written first, then the remainder. -/
def perform_div (rt : Runtime) (src1 src2 quot_dest rem_dest : Nat) : StepRes :=
  match pair_result (rt.registers.read src1) (rt.registers.read src2) with
  | .error e => .err e rt
  | .ok (v1, v2) =>
    if v2 = 0 then .err (.DivisionByZero rt.registers.instr_pointer) rt
    else if v1 = -(2 ^ 63) ∧ v2 = -1 then .panic
    else
      match rt.registers.write quot_dest (Int.tdiv v1 v2) with
      | .error e => .err e rt
      | .ok regs1 =>
        match regs1.write rem_dest (Int.tmod v1 v2) with
        | .error e => .err e { rt with registers := regs1 }
        | .ok regs2 => .ok { rt with registers := regs2 }

/-- Runtime::perform_cmp: zero is equality, carry is strictly-less. -/
def perform_cmp (rt : Runtime) (src1 src2 : Nat) : StepRes :=
  match pair_result (rt.registers.read src1) (rt.registers.read src2) with
  | .error e => .err e rt
  | .ok (v1, v2) =>
    .ok { rt with flag_zero := decide (v1 = v2), flag_carry := decide (v1 < v2) }

/-- Runtime::perform_jmp: unconditional, IP becomes the source register. -/
def perform_jmp (rt : Runtime) (src : Nat) : StepRes :=
  match rt.registers.read src with
  | .ok v => .ok { rt with registers := { rt.registers with instr_pointer := v } }
  | .error e => .err e rt

/-- Runtime::perform_jz: jump when the zero flag is set; otherwise Ok with no
register read at all. -/
def perform_jz (rt : Runtime) (src : Nat) : StepRes :=
  if rt.flag_zero then
    match rt.registers.read src with
    | .ok v => .ok { rt with registers := { rt.registers with instr_pointer := v } }
    | .error e => .err e rt
  else .ok rt

/-- Runtime::perform_jnz: jump when the zero flag is clear. -/
def perform_jnz (rt : Runtime) (src : Nat) : StepRes :=
  if !rt.flag_zero then
    match rt.registers.read src with
    | .ok v => .ok { rt with registers := { rt.registers with instr_pointer := v } }
    | .error e => .err e rt
  else .ok rt

/-- Runtime::perform_jgt: jump when the carry flag is clear. -/
def perform_jgt (rt : Runtime) (src : Nat) : StepRes :=
  if !rt.flag_carry then
    match rt.registers.read src with
    | .ok v => .ok { rt with registers := { rt.registers with instr_pointer := v } }
    | .error e => .err e rt
  else .ok rt

/-- Runtime::perform_jlt: jump when the carry flag is set. -/
def perform_jlt (rt : Runtime) (src : Nat) : StepRes :=
  if rt.flag_carry then
    match rt.registers.read src with
    | .ok v => .ok { rt with registers := { rt.registers with instr_pointer := v } }
    | .error e => .err e rt
  else .ok rt

/-- Runtime::perform_inc; the increment wraps. -/
def perform_inc (rt : Runtime) (dest : Nat) : StepRes :=
  match rt.registers.read dest with
  | .error e => .err e rt
  | .ok current_value =>
    match rt.registers.write dest (wrap64 (current_value + 1)) with
    | .ok regs => .ok { rt with registers := regs }
    | .error e => .err e rt

/-- Runtime::perform_dec; the decrement wraps. -/
def perform_dec (rt : Runtime) (dest : Nat) : StepRes :=
  match rt.registers.read dest with
  | .error e => .err e rt
  | .ok current_value =>
    match rt.registers.write dest (wrap64 (current_value - 1)) with
    | .ok regs => .ok { rt with registers := regs }
    | .error e => .err e rt

/-- Runtime::perform_load_mem: the memory read result is unwrapped (panics on
an out-of-range address); the register write still reports its error. -/
def perform_load_mem (rt : Runtime) (src_addr : Word) (dest_reg : Nat) : StepRes :=
  match rt.memory.read src_addr with
  | .error _ => .panic
  | .ok v =>
    match rt.registers.write dest_reg v with
    | .ok regs => .ok { rt with registers := regs }
    | .error e => .err e rt

/-- Runtime::perform_store_mem: the register read reports its error, the
memory write result is unwrapped (panics on an out-of-range address). -/
def perform_store_mem (rt : Runtime) (src_reg : Nat) (dest_addr : Word) : StepRes :=
  match rt.registers.read src_reg with
  | .error e => .err e rt
  | .ok value =>
    match rt.memory.write dest_addr value with
    | .ok m => .ok { rt with memory := m }
    | .error _ => .panic

/-- Runtime::read_next_inst: fetch the word at the current IP, unwrapping the
memory read (none models the panic of `.unwrap()`). -/
def read_next_inst (rt : Runtime) : Option Word :=
  match rt.memory.read rt.registers.instr_pointer with
  | .ok w => some w
  | .error _ => none

/-- Runtime::consume_next_instr: fetch, then increment the IP. -/
def consume_next_instr (rt : Runtime) : Option (Word × Runtime) :=
  match rt.read_next_inst with
  | none => none
  | some instruction =>
    some (instruction,
      { rt with registers :=
        { rt.registers with instr_pointer := wrap64 (rt.registers.instr_pointer + 1) } })

/-- The dispatch match of Runtime::perform_next_instr, with the handler
outcomes still intact (the source collapses them to a Bool on the spot). -/
def execInstr (rt : Runtime) (instruction : Word) : StepRes :=
  match Instruction.fromWord instruction with
  | .Illegal => rt.handle_illegal_opcode
  | .Halt => .halted rt
  | .Load value dest_reg => rt.perform_load value dest_reg
  | .Copy src dest => rt.perform_copy src dest
  | .Add src1 src2 dest => rt.perform_add src1 src2 dest
  | .Sub src1 src2 dest => rt.perform_sub src1 src2 dest
  | .Mult src1 src2 dest => rt.perform_mult src1 src2 dest
  | .Div src1 src2 quot_dest rem_dest => rt.perform_div src1 src2 quot_dest rem_dest
  | .Cmp src1 src2 => rt.perform_cmp src1 src2
  | .Jmp src => rt.perform_jmp src
  | .Jz src => rt.perform_jz src
  | .Jnz src => rt.perform_jnz src
  | .Jgt src => rt.perform_jgt src
  | .Jlt src => rt.perform_jlt src
  | .Inc dest => rt.perform_inc dest
  | .Dec dest => rt.perform_dec dest
  | .LoadMem src_addr dest_reg => rt.perform_load_mem src_addr dest_reg
  | .StoreMem src_reg dest_addr => rt.perform_store_mem src_reg dest_addr

/-- Runtime::perform_next_instr: consume the next word, dispatch it, and
collapse the outcome with `.is_ok()`; both a Halt and a handler error yield
`false`, a panic propagates. -/
def perform_next_instr (rt : Runtime) : Option (Bool × Runtime) :=
  match rt.consume_next_instr with
  | none => none
  | some (w, rt1) =>
    match rt1.execInstr w with
    | .ok rt2 => some (true, rt2)
    | .halted rt2 => some (false, rt2)
    | .err _ rt2 => some (false, rt2)
    | .panic => none

end Runtime

/-- Result of Runtime::run, which returns `()` in the source: `done` is a
normal return; `panicked` models a propagated panic; `fuelOut` only reports
that the given step budget was too small. -/
inductive RunResult
| done (rt : Runtime)
| panicked
| fuelOut
deriving DecidableEq, Repr

/-- The `while self.running` loop body of Runtime::run. -/
def runFuel : Nat → Runtime → RunResult
| 0, _ => .fuelOut
| fuel + 1, rt =>
  if rt.running then
    match rt.perform_next_instr with
    | none => .panicked
    | some (b, rt1) => runFuel fuel { rt1 with running := b }
  else .done rt

/-- Runtime::run: set running, loop until the flag clears, return normally. -/
def Runtime.run (fuel : Nat) (rt : Runtime) : RunResult :=
  runFuel fuel { rt with running := true }

/-- Observer refining the same loop: it runs exactly the steps of
Runtime::run but remembers why the loop stopped, which `run` itself throws
away when `perform_next_instr` collapses errors with `.is_ok()`. -/
inductive RunOutcome
| haltStop (rt : Runtime)
| errStop (e : Error) (rt : Runtime)
| panicked
| fuelOut
deriving DecidableEq, Repr

/-- The loop of Runtime::run with the stop cause retained. -/
def runTrace : Nat → Runtime → RunOutcome
| 0, _ => .fuelOut
| fuel + 1, rt =>
  match rt.consume_next_instr with
  | none => .panicked
  | some (w, rt1) =>
    match rt1.execInstr w with
    | .ok rt2 => runTrace fuel { rt2 with running := true }
    | .halted rt2 => .haltStop { rt2 with running := false }
    | .err e rt2 => .errStop e { rt2 with running := false }
    | .panic => .panicked

/-- RuntimeBuilder::with_program: each program word is written to memory at
its index, with the write result `.expect`-ed (none models the panic). -/
def install_program : Memory → Nat → List Word → Option Memory
| m, _, [] => some m
| m, i, w :: ws =>
  match m.write (Int.ofNat i) w with
  | .ok m1 => install_program m1 (i + 1) ws
  | .error _ => none

/-- RuntimeBuilder::new().with_program(p).build(): default registers and
memory, the program installed from address 0, flags clear, not running. -/
def mkRuntime (program : List Word) : Option Runtime :=
  (install_program Memory.mkDefault 0 program).map fun mem =>
    { registers := Registers.default, flag_zero := false, flag_carry := false,
      memory := mem, running := false }

/-- Destination register of the single-destination register instructions
(Load, Copy, Add, Sub, Mult, Inc, Dec); none for every other shape. -/
def Instruction.destOf : Instruction → Option Nat
| .Load _ d => some d
| .Copy _ d => some d
| .Add _ _ d => some d
| .Sub _ _ d => some d
| .Mult _ _ d => some d
| .Inc d => some d
| .Dec d => some d
| _ => none

/-- Whether a decoded instruction is a jump whose condition holds in the
given engine state (a Jmp is always taken). -/
def takenJump (i : Instruction) (rt : Runtime) : Bool :=
  match i with
  | .Jmp _ => true
  | .Jz _ => rt.flag_zero
  | .Jnz _ => !rt.flag_zero
  | .Jgt _ => !rt.flag_carry
  | .Jlt _ => rt.flag_carry
  | _ => false

/-- True when Runtime::run returned normally. -/
def RunResult.isDone : RunResult → Bool
| .done _ => true
| _ => false

/-- The error that stopped the loop, when one did. -/
def RunOutcome.errOf : RunOutcome → Option Error
| .errStop e _ => some e
| _ => none

/-- The data0 register of the final state when the loop stopped on Halt. -/
def RunOutcome.haltData0 : RunOutcome → Option Word
| .haltStop rt => some rt.registers.data0
| _ => none

/-- The instruction pointer of the final state when the loop stopped on Halt. -/
def RunOutcome.haltIp : RunOutcome → Option Word
| .haltStop rt => some rt.registers.instr_pointer
| _ => none

/-- The 11-word Euclidean GCD(230, 449) program of the source's
euclidean_algorithm_gcd_of_230_449 test (src/runtime.rs), its binary words
written as decimals: load 230 to d1, load 449 to d0, load 0 to d2, load 0 to
d3, div d0 d1 d0 d2, copy d1 to d0, copy d2 to d1, cmp d2 d3, load 2 to d3,
jnz d3, halt. -/
def gcdProgram : List Word :=
  [72057594038163457, 459777, 144115188075855873, 216172782113783809,
   1125899915231243, 1036, 137438955532, 412316862469, 216172782113785857,
   3080, 0]

/-- A two-word engine whose program is the single illegal word 17
(opcode 17 is unassigned). -/
def rtIll : Runtime :=
  { registers := Registers.default, flag_zero := false, flag_carry := false,
    memory := ⟨[17, 0]⟩, running := false }

/-- rtIll after fetching its first word (IP already incremented). -/
def rtIll1 : Runtime :=
  { registers := { Registers.default with instr_pointer := 1 },
    flag_zero := false, flag_carry := false, memory := ⟨[17, 0]⟩,
    running := false }

/-- rtIll with the running flag raised, as inside Runtime::run. -/
def rtIllR : Runtime := { rtIll with running := true }

/-- rtIllR after fetching its first word. -/
def rtIllR1 : Runtime := { rtIll1 with running := true }

/-- A small engine: two zeroed memory words, default registers. -/
def rtTwo : Runtime :=
  { registers := Registers.default, flag_zero := false, flag_carry := false,
    memory := ⟨[0, 0]⟩, running := false }

/-- An engine whose registers hold the one divisor pair on which Rust i64
division overflows: d0 = i64 minimum, d1 = -1. -/
def rtDivMin : Runtime :=
  { registers :=
      { data0 := -(2 ^ 63), data1 := -1, data2 := 0, data3 := 0,
        instr_pointer := 0 },
    flag_zero := false, flag_carry := false, memory := ⟨[0]⟩,
    running := false }

/-- An engine whose registers hold dividend 7 and divisor 2. -/
def rtDiv7 : Runtime :=
  { registers :=
      { data0 := 7, data1 := 2, data2 := 0, data3 := 0,
        instr_pointer := 0 },
    flag_zero := false, flag_carry := false, memory := ⟨[0]⟩,
    running := false }

/-- An engine whose registers hold 5 and 3 for comparison. -/
def rtCmp : Runtime :=
  { registers :=
      { data0 := 5, data1 := 3, data2 := 0, data3 := 0,
        instr_pointer := 0 },
    flag_zero := false, flag_carry := false, memory := ⟨[0]⟩,
    running := false }

/-- A one-word engine whose program is a single load of 13 into d0
(the first word of the source's load_affects_specific_registers test). -/
def rtLoad : Runtime :=
  { registers := Registers.default, flag_zero := false, flag_carry := false,
    memory := ⟨[13313, 0]⟩, running := false }

/-- rtLoad after fetching its first word. -/
def rtLoad1 : Runtime :=
  { registers := { Registers.default with instr_pointer := 1 },
    flag_zero := false, flag_carry := false, memory := ⟨[13313, 0]⟩,
    running := false }

/-- rtLoad1 after the load handler wrote 13 into d0. -/
def rtLoad2 : Runtime :=
  { registers :=
      { data0 := 13, data1 := 0, data2 := 0, data3 := 0,
        instr_pointer := 1 },
    flag_zero := false, flag_carry := false, memory := ⟨[13313, 0]⟩,
    running := false }

/-- A one-word engine whose program is a single jz with source operand 9
(an invalid register index). -/
def rtJz : Runtime :=
  { registers := Registers.default, flag_zero := false, flag_carry := false,
    memory := ⟨[9223]⟩, running := false }

/-- rtJz after fetching its first word. -/
def rtJz1 : Runtime :=
  { registers := { Registers.default with instr_pointer := 1 },
    flag_zero := false, flag_carry := false, memory := ⟨[9223]⟩,
    running := false }

/-!  Helper lemmas.  -/

/-- Memory.read is the bounds check written in src/memory.rs: out of range
(negative, or at least the buffer length) yields InvalidAddress with the
requested address and the length as upper bound, in range yields the cell. -/
theorem Memory.read_eq (m : Memory) (address : Word) :
    m.read address =
      if address < 0 ∨ m.buffer.length ≤ address.toNat then
        .error (.InvalidAddress address m.buffer.length)
      else .ok (m.buffer.getD address.toNat 0) := by
  unfold Memory.read
  rcases lt_or_le address 0 with h | h
  · simp [h]
  · have hn : ¬ address < 0 := not_lt.mpr h
    simp only [hn, if_false, if_neg, false_or, List.get?_eq_getElem?]
    rcases lt_or_le address.toNat m.buffer.length with hb | hb
    · rw [List.getElem?_eq_getElem hb]
      simp [not_le.mpr hb, List.getElem?_eq_getElem hb]
    · rw [List.getElem?_eq_none hb]
      simp [hb]

/-- Memory.write is the bounds check written in src/memory.rs. -/
theorem Memory.write_eq (m : Memory) (address : Word) (data : Word) :
    m.write address data =
      if address < 0 ∨ m.buffer.length ≤ address.toNat then
        .error (.InvalidAddress address m.buffer.length)
      else .ok ⟨m.buffer.set address.toNat data⟩ := by
  unfold Memory.write
  rcases lt_or_le address 0 with h | h
  · simp [h]
  · have hn : ¬ address < 0 := not_lt.mpr h
    simp only [hn, if_false, if_neg, false_or, List.get?_eq_getElem?]
    rcases lt_or_le address.toNat m.buffer.length with hb | hb
    · rw [List.getElem?_eq_getElem hb]
      simp [not_le.mpr hb]
    · rw [List.getElem?_eq_none hb]
      simp [hb]



/-- wrap64 is the identity on values already in the i64 range. -/
theorem wrap64_eq_self {x : Int} (h1 : -(2 ^ 63) ≤ x) (h2 : x < 2 ^ 63) :
    wrap64 x = x := by
  unfold wrap64
  rw [Int.emod_eq_of_lt (by omega) (by omega)]
  omega

/-- Registers.write succeeds exactly on indices 0..3 and equals Registers.set. -/
theorem Registers.write_ok {regs : Registers} {i : Nat} {v : Word}
    {regs' : Registers} (h : regs.write i v = .ok regs') :
    i ≤ 3 ∧ regs' = regs.set i v := by
  rcases i with _ | _ | _ | _ | i <;>
    simp [Registers.write, Registers.set] at h ⊢
  all_goals exact h.symm

/-- Registers.write on a valid index. -/
theorem Registers.write_ok_of_le {regs : Registers} {i : Nat} (v : Word)
    (h : i ≤ 3) : regs.write i v = .ok (regs.set i v) := by
  rcases i with _ | _ | _ | _ | i <;> simp [Registers.write, Registers.set]
  omega

/-- Registers.write failures carry the index and the current IP. -/
theorem Registers.write_err {regs : Registers} {i : Nat} {v : Word} {e : Error}
    (h : regs.write i v = .error e) :
    4 ≤ i ∧ e = .InvalidRegister i regs.instr_pointer := by
  rcases i with _ | _ | _ | _ | i <;> simp [Registers.write] at h ⊢
  exact h.symm

/-- Registers.read failures carry the index and the current IP. -/
theorem Registers.read_err {regs : Registers} {i : Nat} {e : Error}
    (h : regs.read i = .error e) :
    5 ≤ i ∧ e = .InvalidRegister i regs.instr_pointer := by
  rcases i with _ | _ | _ | _ | _ | i <;> simp [Registers.read] at h ⊢
  exact h.symm

/-- Registers.set never touches the instruction pointer. -/
theorem Registers.set_ip (regs : Registers) (i : Nat) (v : Word) :
    (regs.set i v).instr_pointer = regs.instr_pointer := by
  rcases i with _ | _ | _ | _ | i <;> simp [Registers.set]

/-- Registers.set leaves every other data register readable unchanged. -/
theorem Registers.set_read_ne (regs : Registers) {i j : Nat} (v : Word)
    (hj : j ≤ 3) (hne : j ≠ i) : (regs.set i v).read j = regs.read j := by
  rcases i with _ | _ | _ | _ | i <;> rcases j with _ | _ | _ | _ | j <;>
    simp_all [Registers.set, Registers.read]

/-- Splitting a successful pair_result. -/
theorem pair_result_ok {α β ε : Type} {r1 : Except ε α} {r2 : Except ε β}
    {v1 : α} {v2 : β} (h : pair_result r1 r2 = .ok (v1, v2)) :
    r1 = .ok v1 ∧ r2 = .ok v2 := by
  cases r1 <;> cases r2 <;> simp_all [pair_result, Except.bind]

/-- Splitting a failed pair_result. -/
theorem pair_result_err {α β ε : Type} {r1 : Except ε α} {r2 : Except ε β}
    {e : ε} (h : pair_result r1 r2 = .error e) :
    r1 = .error e ∨ ∃ v1, r1 = .ok v1 ∧ r2 = .error e := by
  cases r1 <;> cases r2 <;> simp_all [pair_result, Except.bind]

/-- A pair of register reads that fails carries the current IP in its error. -/
theorem pair_read_err_ip {regs : Registers} {i j : Nat} {e : Error}
    (h : pair_result (regs.read i) (regs.read j) = .error e) :
    e.ip = regs.instr_pointer := by
  rcases pair_result_err h with h1 | ⟨v1, _, h2⟩
  · rcases Registers.read_err h1 with ⟨_, rfl⟩
    rfl
  · rcases Registers.read_err h2 with ⟨_, rfl⟩
    rfl

/-- A successful memory read means the address was in range. -/
theorem Memory.read_ok_bounds {m : Memory} {a w : Word}
    (h : m.read a = .ok w) : 0 ≤ a ∧ a.toNat < m.buffer.length := by
  rw [Memory.read_eq] at h
  by_cases hc : a < 0 ∨ m.buffer.length ≤ a.toNat
  · simp [hc] at h
  · push_neg at hc
    exact ⟨hc.1, hc.2⟩

/-- Unfolding a successful fetch: the word comes from the memory cell at the
current IP and the IP advances by one (wrapped). -/
theorem Runtime.consume_ok {rt : Runtime} {w : Word} {rt1 : Runtime}
    (h : rt.consume_next_instr = some (w, rt1)) :
    rt.memory.read rt.registers.instr_pointer = .ok w ∧
    rt1 = { rt with registers :=
      { rt.registers with
        instr_pointer := wrap64 (rt.registers.instr_pointer + 1) } } := by
  unfold Runtime.consume_next_instr Runtime.read_next_inst at h
  rcases hr : rt.memory.read rt.registers.instr_pointer with e | v <;>
    rw [hr] at h <;> simp_all

/-- In a memory smaller than 2^63 words a successful fetch advances the IP by
exactly one. -/
theorem Runtime.consume_ip_succ {rt : Runtime} {w : Word} {rt1 : Runtime}
    (hlen : rt.memory.buffer.length < 2 ^ 63)
    (h : rt.consume_next_instr = some (w, rt1)) :
    rt1.registers.instr_pointer = rt.registers.instr_pointer + 1 := by
  rcases Runtime.consume_ok h with ⟨hr, heq⟩
  rcases Memory.read_ok_bounds hr with ⟨h0, hb⟩
  have ht := Int.toNat_of_nonneg h0
  subst heq
  show wrap64 (rt.registers.instr_pointer + 1) = rt.registers.instr_pointer + 1
  exact wrap64_eq_self (by omega) (by omega)

/-!  Dispatch lemmas: execInstr routes each decoded shape to its handler.  -/

/-- Dispatching a word that decodes to Illegal. -/
theorem Runtime.execInstr_illegal (rt : Runtime) {w : Word}
    (hi : Instruction.fromWord w = .Illegal) :
    rt.execInstr w = rt.handle_illegal_opcode := by
  unfold Runtime.execInstr
  rw [hi]

/-- Dispatching a word that decodes to Halt. -/
theorem Runtime.execInstr_halt (rt : Runtime) {w : Word}
    (hi : Instruction.fromWord w = .Halt) :
    rt.execInstr w = .halted rt := by
  unfold Runtime.execInstr
  rw [hi]

/-- Dispatching a word that decodes to Load. -/
theorem Runtime.execInstr_load (rt : Runtime) {w : Word} {v : Word} {d : Nat}
    (hi : Instruction.fromWord w = .Load v d) :
    rt.execInstr w = rt.perform_load v d := by
  unfold Runtime.execInstr
  rw [hi]

/-- Dispatching a word that decodes to Copy. -/
theorem Runtime.execInstr_copy (rt : Runtime) {w : Word} {s d : Nat}
    (hi : Instruction.fromWord w = .Copy s d) :
    rt.execInstr w = rt.perform_copy s d := by
  unfold Runtime.execInstr
  rw [hi]

/-- Dispatching a word that decodes to Add. -/
theorem Runtime.execInstr_add (rt : Runtime) {w : Word} {s1 s2 d : Nat}
    (hi : Instruction.fromWord w = .Add s1 s2 d) :
    rt.execInstr w = rt.perform_add s1 s2 d := by
  unfold Runtime.execInstr
  rw [hi]

/-- Dispatching a word that decodes to Sub. -/
theorem Runtime.execInstr_sub (rt : Runtime) {w : Word} {s1 s2 d : Nat}
    (hi : Instruction.fromWord w = .Sub s1 s2 d) :
    rt.execInstr w = rt.perform_sub s1 s2 d := by
  unfold Runtime.execInstr
  rw [hi]

/-- Dispatching a word that decodes to Mult. -/
theorem Runtime.execInstr_mult (rt : Runtime) {w : Word} {s1 s2 d : Nat}
    (hi : Instruction.fromWord w = .Mult s1 s2 d) :
    rt.execInstr w = rt.perform_mult s1 s2 d := by
  unfold Runtime.execInstr
  rw [hi]

/-- Dispatching a word that decodes to Div. -/
theorem Runtime.execInstr_div (rt : Runtime) {w : Word} {s1 s2 qd rd : Nat}
    (hi : Instruction.fromWord w = .Div s1 s2 qd rd) :
    rt.execInstr w = rt.perform_div s1 s2 qd rd := by
  unfold Runtime.execInstr
  rw [hi]

/-- Dispatching a word that decodes to Cmp. -/
theorem Runtime.execInstr_cmp (rt : Runtime) {w : Word} {s1 s2 : Nat}
    (hi : Instruction.fromWord w = .Cmp s1 s2) :
    rt.execInstr w = rt.perform_cmp s1 s2 := by
  unfold Runtime.execInstr
  rw [hi]

/-- Dispatching a word that decodes to Jmp. -/
theorem Runtime.execInstr_jmp (rt : Runtime) {w : Word} {s : Nat}
    (hi : Instruction.fromWord w = .Jmp s) :
    rt.execInstr w = rt.perform_jmp s := by
  unfold Runtime.execInstr
  rw [hi]

/-- Dispatching a word that decodes to Jz. -/
theorem Runtime.execInstr_jz (rt : Runtime) {w : Word} {s : Nat}
    (hi : Instruction.fromWord w = .Jz s) :
    rt.execInstr w = rt.perform_jz s := by
  unfold Runtime.execInstr
  rw [hi]

/-- Dispatching a word that decodes to Jnz. -/
theorem Runtime.execInstr_jnz (rt : Runtime) {w : Word} {s : Nat}
    (hi : Instruction.fromWord w = .Jnz s) :
    rt.execInstr w = rt.perform_jnz s := by
  unfold Runtime.execInstr
  rw [hi]

/-- Dispatching a word that decodes to Jgt. -/
theorem Runtime.execInstr_jgt (rt : Runtime) {w : Word} {s : Nat}
    (hi : Instruction.fromWord w = .Jgt s) :
    rt.execInstr w = rt.perform_jgt s := by
  unfold Runtime.execInstr
  rw [hi]

/-- Dispatching a word that decodes to Jlt. -/
theorem Runtime.execInstr_jlt (rt : Runtime) {w : Word} {s : Nat}
    (hi : Instruction.fromWord w = .Jlt s) :
    rt.execInstr w = rt.perform_jlt s := by
  unfold Runtime.execInstr
  rw [hi]

/-- Dispatching a word that decodes to Inc. -/
theorem Runtime.execInstr_inc (rt : Runtime) {w : Word} {d : Nat}
    (hi : Instruction.fromWord w = .Inc d) :
    rt.execInstr w = rt.perform_inc d := by
  unfold Runtime.execInstr
  rw [hi]

/-- Dispatching a word that decodes to Dec. -/
theorem Runtime.execInstr_dec (rt : Runtime) {w : Word} {d : Nat}
    (hi : Instruction.fromWord w = .Dec d) :
    rt.execInstr w = rt.perform_dec d := by
  unfold Runtime.execInstr
  rw [hi]

/-- Dispatching a word that decodes to LoadMem. -/
theorem Runtime.execInstr_load_mem (rt : Runtime) {w : Word} {a : Word} {d : Nat}
    (hi : Instruction.fromWord w = .LoadMem a d) :
    rt.execInstr w = rt.perform_load_mem a d := by
  unfold Runtime.execInstr
  rw [hi]

/-- Dispatching a word that decodes to StoreMem. -/
theorem Runtime.execInstr_store_mem (rt : Runtime) {w : Word} {s : Nat} {a : Word}
    (hi : Instruction.fromWord w = .StoreMem s a) :
    rt.execInstr w = rt.perform_store_mem s a := by
  unfold Runtime.execInstr
  rw [hi]

/-!  Error payloads: every handler failure stamps the current IP.  -/

/-- The IllegalOpcode handler builds its payload from the current
(post-increment) IP and the memory word at that address, and leaves the
state untouched. -/
theorem Runtime.handle_illegal_spec {rt : Runtime} {e : Error} {rt2 : Runtime}
    (h : rt.handle_illegal_opcode = .err e rt2) :
    rt2 = rt ∧ e.ip = rt.registers.instr_pointer ∧
    ∀ w2, rt.memory.read rt.registers.instr_pointer = .ok w2 →
      e = .IllegalOpcode w2 rt.registers.instr_pointer := by
  unfold Runtime.handle_illegal_opcode at h
  rcases hr : rt.memory.read rt.registers.instr_pointer with x | v <;>
    rw [hr] at h <;> dsimp only at h
  · simp at h
  · simp only [StepRes.err.injEq] at h
    obtain ⟨rfl, rfl⟩ := h
    refine ⟨rfl, rfl, ?_⟩
    intro w2 hw2
    cases hw2
    rfl

/-- Load failures carry the current IP. -/
theorem Runtime.perform_load_err {rt : Runtime} {v : Word} {d : Nat}
    {e : Error} {rt2 : Runtime} (h : rt.perform_load v d = .err e rt2) :
    e.ip = rt.registers.instr_pointer := by
  unfold Runtime.perform_load at h
  rcases hw : rt.registers.write d v with e1 | regs <;> rw [hw] at h <;>
    dsimp only at h
  · simp only [StepRes.err.injEq] at h
    obtain ⟨rfl, rfl⟩ := h
    obtain ⟨-, rfl⟩ := Registers.write_err hw
    rfl
  · simp at h

/-- Copy failures carry the current IP. -/
theorem Runtime.perform_copy_err {rt : Runtime} {s d : Nat}
    {e : Error} {rt2 : Runtime} (h : rt.perform_copy s d = .err e rt2) :
    e.ip = rt.registers.instr_pointer := by
  unfold Runtime.perform_copy at h
  rcases hr : rt.registers.read s with e1 | v <;> rw [hr] at h <;>
    dsimp only at h
  · simp only [StepRes.err.injEq] at h
    obtain ⟨rfl, rfl⟩ := h
    obtain ⟨-, rfl⟩ := Registers.read_err hr
    rfl
  · rcases hw : rt.registers.write d v with e1 | regs <;> rw [hw] at h <;>
      dsimp only at h
    · simp only [StepRes.err.injEq] at h
      obtain ⟨rfl, rfl⟩ := h
      obtain ⟨-, rfl⟩ := Registers.write_err hw
      rfl
    · simp at h

/-- Add failures carry the current IP. -/
theorem Runtime.perform_add_err {rt : Runtime} {s1 s2 d : Nat}
    {e : Error} {rt2 : Runtime} (h : rt.perform_add s1 s2 d = .err e rt2) :
    e.ip = rt.registers.instr_pointer := by
  unfold Runtime.perform_add at h
  rcases hp : pair_result (rt.registers.read s1) (rt.registers.read s2)
    with e1 | v <;> rw [hp] at h <;> dsimp only at h
  · simp only [StepRes.err.injEq] at h
    obtain ⟨rfl, rfl⟩ := h
    exact pair_read_err_ip hp
  · obtain ⟨v1, v2⟩ := v
    dsimp only at h
    rcases hw : rt.registers.write d (wrap64 (v1 + v2)) with e1 | regs <;>
      rw [hw] at h <;> dsimp only at h
    · simp only [StepRes.err.injEq] at h
      obtain ⟨rfl, rfl⟩ := h
      obtain ⟨-, rfl⟩ := Registers.write_err hw
      rfl
    · simp at h


/-- Sub failures carry the current IP. -/
theorem Runtime.perform_sub_err {rt : Runtime} {s1 s2 d : Nat}
    {e : Error} {rt2 : Runtime} (h : rt.perform_sub s1 s2 d = .err e rt2) :
    e.ip = rt.registers.instr_pointer := by
  unfold Runtime.perform_sub at h
  rcases hp : pair_result (rt.registers.read s1) (rt.registers.read s2)
    with e1 | v <;> rw [hp] at h <;> dsimp only at h
  · simp only [StepRes.err.injEq] at h
    obtain ⟨rfl, rfl⟩ := h
    exact pair_read_err_ip hp
  · obtain ⟨v1, v2⟩ := v
    dsimp only at h
    rcases hw : rt.registers.write d (wrap64 (v1 - v2)) with e1 | regs <;>
      rw [hw] at h <;> dsimp only at h
    · simp only [StepRes.err.injEq] at h
      obtain ⟨rfl, rfl⟩ := h
      obtain ⟨-, rfl⟩ := Registers.write_err hw
      rfl
    · simp at h


/-- Mult failures carry the current IP. -/
theorem Runtime.perform_mult_err {rt : Runtime} {s1 s2 d : Nat}
    {e : Error} {rt2 : Runtime} (h : rt.perform_mult s1 s2 d = .err e rt2) :
    e.ip = rt.registers.instr_pointer := by
  unfold Runtime.perform_mult at h
  rcases hp : pair_result (rt.registers.read s1) (rt.registers.read s2)
    with e1 | v <;> rw [hp] at h <;> dsimp only at h
  · simp only [StepRes.err.injEq] at h
    obtain ⟨rfl, rfl⟩ := h
    exact pair_read_err_ip hp
  · obtain ⟨v1, v2⟩ := v
    dsimp only at h
    rcases hw : rt.registers.write d (wrap64 (v1 * v2)) with e1 | regs <;>
      rw [hw] at h <;> dsimp only at h
    · simp only [StepRes.err.injEq] at h
      obtain ⟨rfl, rfl⟩ := h
      obtain ⟨-, rfl⟩ := Registers.write_err hw
      rfl
    · simp at h


/-- Div failures carry the current IP. -/
theorem Runtime.perform_div_err {rt : Runtime} {s1 s2 qd rd : Nat}
    {e : Error} {rt2 : Runtime} (h : rt.perform_div s1 s2 qd rd = .err e rt2) :
    e.ip = rt.registers.instr_pointer := by
  unfold Runtime.perform_div at h
  rcases hp : pair_result (rt.registers.read s1) (rt.registers.read s2)
    with e1 | v <;> rw [hp] at h <;> dsimp only at h
  · simp only [StepRes.err.injEq] at h
    obtain ⟨rfl, rfl⟩ := h
    exact pair_read_err_ip hp
  · obtain ⟨v1, v2⟩ := v
    dsimp only at h
    by_cases h2 : v2 = 0
    · rw [if_pos h2] at h
      simp only [StepRes.err.injEq] at h
      obtain ⟨rfl, rfl⟩ := h
      rfl
    · rw [if_neg h2] at h
      by_cases hov : v1 = -(2 ^ 63) ∧ v2 = -1
      · rw [if_pos hov] at h
        simp at h
      · rw [if_neg hov] at h
        rcases hw : rt.registers.write qd (Int.tdiv v1 v2) with e1 | regs1 <;>
          rw [hw] at h <;> dsimp only at h
        · simp only [StepRes.err.injEq] at h
          obtain ⟨rfl, rfl⟩ := h
          obtain ⟨-, rfl⟩ := Registers.write_err hw
          rfl
        · rcases hw2 : regs1.write rd (Int.tmod v1 v2) with e1 | regs2 <;>
            rw [hw2] at h <;> dsimp only at h
          · simp only [StepRes.err.injEq] at h
            obtain ⟨rfl, rfl⟩ := h
            obtain ⟨-, rfl⟩ := Registers.write_err hw2
            obtain ⟨-, rfl⟩ := Registers.write_ok hw
            simp [Error.ip, Registers.set_ip]
          · simp at h

/-- Cmp failures carry the current IP. -/
theorem Runtime.perform_cmp_err {rt : Runtime} {s1 s2 : Nat}
    {e : Error} {rt2 : Runtime} (h : rt.perform_cmp s1 s2 = .err e rt2) :
    e.ip = rt.registers.instr_pointer := by
  unfold Runtime.perform_cmp at h
  rcases hp : pair_result (rt.registers.read s1) (rt.registers.read s2)
    with e1 | v <;> rw [hp] at h <;> dsimp only at h
  · simp only [StepRes.err.injEq] at h
    obtain ⟨rfl, rfl⟩ := h
    exact pair_read_err_ip hp
  · obtain ⟨v1, v2⟩ := v
    simp at h

/-- Jmp failures carry the current IP. -/
theorem Runtime.perform_jmp_err {rt : Runtime} {s : Nat}
    {e : Error} {rt2 : Runtime} (h : rt.perform_jmp s = .err e rt2) :
    e.ip = rt.registers.instr_pointer := by
  unfold Runtime.perform_jmp at h
  rcases hr : rt.registers.read s with e1 | v <;> rw [hr] at h <;>
    dsimp only at h
  · simp only [StepRes.err.injEq] at h
    obtain ⟨rfl, rfl⟩ := h
    obtain ⟨-, rfl⟩ := Registers.read_err hr
    rfl
  · simp at h

/-- The common conditional-jump body: a failure carries the current IP. -/
theorem Runtime.jump_if_err {rt : Runtime} {s : Nat} {e : Error}
    {rt2 : Runtime} (c : Bool)
    (h : (if c then
            match rt.registers.read s with
            | .ok v =>
              StepRes.ok
                { rt with registers := { rt.registers with instr_pointer := v } }
            | .error e => StepRes.err e rt
          else StepRes.ok rt) = StepRes.err e rt2) :
    e.ip = rt.registers.instr_pointer := by
  cases c
  · simp at h
  · rw [if_pos rfl] at h
    rcases hr : rt.registers.read s with e1 | v <;> rw [hr] at h <;>
      dsimp only at h
    · simp only [StepRes.err.injEq] at h
      obtain ⟨rfl, rfl⟩ := h
      obtain ⟨-, rfl⟩ := Registers.read_err hr
      rfl
    · simp at h

/-- Jz failures carry the current IP. -/
theorem Runtime.perform_jz_err {rt : Runtime} {s : Nat}
    {e : Error} {rt2 : Runtime} (h : rt.perform_jz s = .err e rt2) :
    e.ip = rt.registers.instr_pointer :=
  Runtime.jump_if_err rt.flag_zero h

/-- Jnz failures carry the current IP. -/
theorem Runtime.perform_jnz_err {rt : Runtime} {s : Nat}
    {e : Error} {rt2 : Runtime} (h : rt.perform_jnz s = .err e rt2) :
    e.ip = rt.registers.instr_pointer :=
  Runtime.jump_if_err (!rt.flag_zero) h

/-- Jgt failures carry the current IP. -/
theorem Runtime.perform_jgt_err {rt : Runtime} {s : Nat}
    {e : Error} {rt2 : Runtime} (h : rt.perform_jgt s = .err e rt2) :
    e.ip = rt.registers.instr_pointer :=
  Runtime.jump_if_err (!rt.flag_carry) h

/-- Jlt failures carry the current IP. -/
theorem Runtime.perform_jlt_err {rt : Runtime} {s : Nat}
    {e : Error} {rt2 : Runtime} (h : rt.perform_jlt s = .err e rt2) :
    e.ip = rt.registers.instr_pointer :=
  Runtime.jump_if_err rt.flag_carry h

/-- Inc failures carry the current IP. -/
theorem Runtime.perform_inc_err {rt : Runtime} {d : Nat}
    {e : Error} {rt2 : Runtime} (h : rt.perform_inc d = .err e rt2) :
    e.ip = rt.registers.instr_pointer := by
  unfold Runtime.perform_inc at h
  rcases hr : rt.registers.read d with e1 | v <;> rw [hr] at h <;>
    dsimp only at h
  · simp only [StepRes.err.injEq] at h
    obtain ⟨rfl, rfl⟩ := h
    obtain ⟨-, rfl⟩ := Registers.read_err hr
    rfl
  · rcases hw : rt.registers.write d (wrap64 (v + 1)) with e1 | regs <;>
      rw [hw] at h <;> dsimp only at h
    · simp only [StepRes.err.injEq] at h
      obtain ⟨rfl, rfl⟩ := h
      obtain ⟨-, rfl⟩ := Registers.write_err hw
      rfl
    · simp at h


/-- Dec failures carry the current IP. -/
theorem Runtime.perform_dec_err {rt : Runtime} {d : Nat}
    {e : Error} {rt2 : Runtime} (h : rt.perform_dec d = .err e rt2) :
    e.ip = rt.registers.instr_pointer := by
  unfold Runtime.perform_dec at h
  rcases hr : rt.registers.read d with e1 | v <;> rw [hr] at h <;>
    dsimp only at h
  · simp only [StepRes.err.injEq] at h
    obtain ⟨rfl, rfl⟩ := h
    obtain ⟨-, rfl⟩ := Registers.read_err hr
    rfl
  · rcases hw : rt.registers.write d (wrap64 (v - 1)) with e1 | regs <;>
      rw [hw] at h <;> dsimp only at h
    · simp only [StepRes.err.injEq] at h
      obtain ⟨rfl, rfl⟩ := h
      obtain ⟨-, rfl⟩ := Registers.write_err hw
      rfl
    · simp at h


/-- LoadMem failures carry the current IP (memory failures panic instead). -/
theorem Runtime.perform_load_mem_err {rt : Runtime} {a : Word} {d : Nat}
    {e : Error} {rt2 : Runtime} (h : rt.perform_load_mem a d = .err e rt2) :
    e.ip = rt.registers.instr_pointer := by
  unfold Runtime.perform_load_mem at h
  rcases hr : rt.memory.read a with e1 | v <;> rw [hr] at h <;> dsimp only at h
  · simp at h
  · rcases hw : rt.registers.write d v with e1 | regs <;> rw [hw] at h <;>
      dsimp only at h
    · simp only [StepRes.err.injEq] at h
      obtain ⟨rfl, rfl⟩ := h
      obtain ⟨-, rfl⟩ := Registers.write_err hw
      rfl
    · simp at h

/-- StoreMem failures carry the current IP (memory failures panic instead). -/
theorem Runtime.perform_store_mem_err {rt : Runtime} {s : Nat} {a : Word}
    {e : Error} {rt2 : Runtime} (h : rt.perform_store_mem s a = .err e rt2) :
    e.ip = rt.registers.instr_pointer := by
  unfold Runtime.perform_store_mem at h
  rcases hr : rt.registers.read s with e1 | v <;> rw [hr] at h <;>
    dsimp only at h
  · simp only [StepRes.err.injEq] at h
    obtain ⟨rfl, rfl⟩ := h
    obtain ⟨-, rfl⟩ := Registers.read_err hr
    rfl
  · rcases hw : rt.memory.write a v with e1 | m <;> rw [hw] at h <;>
      dsimp only at h <;> simp at h

/-- Every error coming out of the dispatcher carries the engine's current
(already incremented) instruction pointer. -/
theorem Runtime.execInstr_err_ip {rt : Runtime} {w : Word} {e : Error}
    {rt2 : Runtime} (h : rt.execInstr w = .err e rt2) :
    e.ip = rt.registers.instr_pointer := by
  cases hi : Instruction.fromWord w
  case Illegal =>
    rw [Runtime.execInstr_illegal rt hi] at h
    exact (Runtime.handle_illegal_spec h).2.1
  case Halt =>
    rw [Runtime.execInstr_halt rt hi] at h
    simp at h
  case Load v d =>
    rw [Runtime.execInstr_load rt hi] at h
    exact Runtime.perform_load_err h
  case Copy s d =>
    rw [Runtime.execInstr_copy rt hi] at h
    exact Runtime.perform_copy_err h
  case Add s1 s2 d =>
    rw [Runtime.execInstr_add rt hi] at h
    exact Runtime.perform_add_err h
  case Sub s1 s2 d =>
    rw [Runtime.execInstr_sub rt hi] at h
    exact Runtime.perform_sub_err h
  case Mult s1 s2 d =>
    rw [Runtime.execInstr_mult rt hi] at h
    exact Runtime.perform_mult_err h
  case Div s1 s2 qd rd =>
    rw [Runtime.execInstr_div rt hi] at h
    exact Runtime.perform_div_err h
  case Cmp s1 s2 =>
    rw [Runtime.execInstr_cmp rt hi] at h
    exact Runtime.perform_cmp_err h
  case Jmp s =>
    rw [Runtime.execInstr_jmp rt hi] at h
    exact Runtime.perform_jmp_err h
  case Jz s =>
    rw [Runtime.execInstr_jz rt hi] at h
    exact Runtime.perform_jz_err h
  case Jnz s =>
    rw [Runtime.execInstr_jnz rt hi] at h
    exact Runtime.perform_jnz_err h
  case Jgt s =>
    rw [Runtime.execInstr_jgt rt hi] at h
    exact Runtime.perform_jgt_err h
  case Jlt s =>
    rw [Runtime.execInstr_jlt rt hi] at h
    exact Runtime.perform_jlt_err h
  case Inc d =>
    rw [Runtime.execInstr_inc rt hi] at h
    exact Runtime.perform_inc_err h
  case Dec d =>
    rw [Runtime.execInstr_dec rt hi] at h
    exact Runtime.perform_dec_err h
  case LoadMem a d =>
    rw [Runtime.execInstr_load_mem rt hi] at h
    exact Runtime.perform_load_mem_err h
  case StoreMem s a =>
    rw [Runtime.execInstr_store_mem rt hi] at h
    exact Runtime.perform_store_mem_err h

/-!  Success shapes of the handlers.  -/

/-- The Illegal handler never succeeds. -/
theorem Runtime.handle_illegal_ne_ok {rt rt2 : Runtime} :
    rt.handle_illegal_opcode ≠ .ok rt2 := by
  unfold Runtime.handle_illegal_opcode
  rcases hr : rt.memory.read rt.registers.instr_pointer with x | v <;> simp

/-- A successful Load writes the immediate to its destination register and
changes nothing else. -/
theorem Runtime.perform_load_ok {rt : Runtime} {v : Word} {d : Nat}
    {rt2 : Runtime} (h : rt.perform_load v d = .ok rt2) :
    d ≤ 3 ∧ rt2 = { rt with registers := rt.registers.set d v } := by
  unfold Runtime.perform_load at h
  rcases hw : rt.registers.write d v with e1 | regs <;> rw [hw] at h <;>
    dsimp only at h
  · simp at h
  · simp only [StepRes.ok.injEq] at h
    obtain ⟨hle, rfl⟩ := Registers.write_ok hw
    exact ⟨hle, h.symm⟩

/-- A successful Copy writes some value to its destination register and
changes nothing else. -/
theorem Runtime.perform_copy_ok {rt : Runtime} {s d : Nat}
    {rt2 : Runtime} (h : rt.perform_copy s d = .ok rt2) :
    ∃ x, d ≤ 3 ∧ rt2 = { rt with registers := rt.registers.set d x } := by
  unfold Runtime.perform_copy at h
  rcases hr : rt.registers.read s with e1 | v <;> rw [hr] at h <;>
    dsimp only at h
  · simp at h
  · rcases hw : rt.registers.write d v with e1 | regs <;> rw [hw] at h <;>
      dsimp only at h
    · simp at h
    · simp only [StepRes.ok.injEq] at h
      obtain ⟨hle, rfl⟩ := Registers.write_ok hw
      exact ⟨v, hle, h.symm⟩

/-- A successful Add writes some value to its destination register and
changes nothing else. -/
theorem Runtime.perform_add_ok {rt : Runtime} {s1 s2 d : Nat}
    {rt2 : Runtime} (h : rt.perform_add s1 s2 d = .ok rt2) :
    ∃ x, d ≤ 3 ∧ rt2 = { rt with registers := rt.registers.set d x } := by
  unfold Runtime.perform_add at h
  rcases hp : pair_result (rt.registers.read s1) (rt.registers.read s2)
    with e1 | v <;> rw [hp] at h <;> dsimp only at h
  · simp at h
  · obtain ⟨v1, v2⟩ := v
    dsimp only at h
    rcases hw : rt.registers.write d (wrap64 (v1 + v2)) with e1 | regs <;>
      rw [hw] at h <;> dsimp only at h
    · simp at h
    · simp only [StepRes.ok.injEq] at h
      obtain ⟨hle, rfl⟩ := Registers.write_ok hw
      exact ⟨wrap64 (v1 + v2), hle, h.symm⟩

/-- A successful Sub writes some value to its destination register and
changes nothing else. -/
theorem Runtime.perform_sub_ok {rt : Runtime} {s1 s2 d : Nat}
    {rt2 : Runtime} (h : rt.perform_sub s1 s2 d = .ok rt2) :
    ∃ x, d ≤ 3 ∧ rt2 = { rt with registers := rt.registers.set d x } := by
  unfold Runtime.perform_sub at h
  rcases hp : pair_result (rt.registers.read s1) (rt.registers.read s2)
    with e1 | v <;> rw [hp] at h <;> dsimp only at h
  · simp at h
  · obtain ⟨v1, v2⟩ := v
    dsimp only at h
    rcases hw : rt.registers.write d (wrap64 (v1 - v2)) with e1 | regs <;>
      rw [hw] at h <;> dsimp only at h
    · simp at h
    · simp only [StepRes.ok.injEq] at h
      obtain ⟨hle, rfl⟩ := Registers.write_ok hw
      exact ⟨wrap64 (v1 - v2), hle, h.symm⟩

/-- A successful Mult writes some value to its destination register and
changes nothing else. -/
theorem Runtime.perform_mult_ok {rt : Runtime} {s1 s2 d : Nat}
    {rt2 : Runtime} (h : rt.perform_mult s1 s2 d = .ok rt2) :
    ∃ x, d ≤ 3 ∧ rt2 = { rt with registers := rt.registers.set d x } := by
  unfold Runtime.perform_mult at h
  rcases hp : pair_result (rt.registers.read s1) (rt.registers.read s2)
    with e1 | v <;> rw [hp] at h <;> dsimp only at h
  · simp at h
  · obtain ⟨v1, v2⟩ := v
    dsimp only at h
    rcases hw : rt.registers.write d (wrap64 (v1 * v2)) with e1 | regs <;>
      rw [hw] at h <;> dsimp only at h
    · simp at h
    · simp only [StepRes.ok.injEq] at h
      obtain ⟨hle, rfl⟩ := Registers.write_ok hw
      exact ⟨wrap64 (v1 * v2), hle, h.symm⟩

/-- A successful Inc rewrites its register and changes nothing else. -/
theorem Runtime.perform_inc_ok {rt : Runtime} {d : Nat}
    {rt2 : Runtime} (h : rt.perform_inc d = .ok rt2) :
    ∃ x, d ≤ 3 ∧ rt2 = { rt with registers := rt.registers.set d x } := by
  unfold Runtime.perform_inc at h
  rcases hr : rt.registers.read d with e1 | v <;> rw [hr] at h <;>
    dsimp only at h
  · simp at h
  · rcases hw : rt.registers.write d (wrap64 (v + 1)) with e1 | regs <;>
      rw [hw] at h <;> dsimp only at h
    · simp at h
    · simp only [StepRes.ok.injEq] at h
      obtain ⟨hle, rfl⟩ := Registers.write_ok hw
      exact ⟨wrap64 (v + 1), hle, h.symm⟩

/-- A successful Dec rewrites its register and changes nothing else. -/
theorem Runtime.perform_dec_ok {rt : Runtime} {d : Nat}
    {rt2 : Runtime} (h : rt.perform_dec d = .ok rt2) :
    ∃ x, d ≤ 3 ∧ rt2 = { rt with registers := rt.registers.set d x } := by
  unfold Runtime.perform_dec at h
  rcases hr : rt.registers.read d with e1 | v <;> rw [hr] at h <;>
    dsimp only at h
  · simp at h
  · rcases hw : rt.registers.write d (wrap64 (v - 1)) with e1 | regs <;>
      rw [hw] at h <;> dsimp only at h
    · simp at h
    · simp only [StepRes.ok.injEq] at h
      obtain ⟨hle, rfl⟩ := Registers.write_ok hw
      exact ⟨wrap64 (v - 1), hle, h.symm⟩

/-- A successful Div writes the two destination registers and changes
nothing else. -/
theorem Runtime.perform_div_ok {rt : Runtime} {s1 s2 qd rd : Nat}
    {rt2 : Runtime} (h : rt.perform_div s1 s2 qd rd = .ok rt2) :
    ∃ q r, rt2 =
      { rt with registers := (rt.registers.set qd q).set rd r } := by
  unfold Runtime.perform_div at h
  rcases hp : pair_result (rt.registers.read s1) (rt.registers.read s2)
    with e1 | v <;> rw [hp] at h <;> dsimp only at h
  · simp at h
  · obtain ⟨v1, v2⟩ := v
    dsimp only at h
    by_cases h2 : v2 = 0
    · rw [if_pos h2] at h
      simp at h
    · rw [if_neg h2] at h
      by_cases hov : v1 = -(2 ^ 63) ∧ v2 = -1
      · rw [if_pos hov] at h
        simp at h
      · rw [if_neg hov] at h
        rcases hw : rt.registers.write qd (Int.tdiv v1 v2) with e1 | regs1 <;>
          rw [hw] at h <;> dsimp only at h
        · simp at h
        · rcases hw2 : regs1.write rd (Int.tmod v1 v2) with e1 | regs2 <;>
            rw [hw2] at h <;> dsimp only at h
          · simp at h
          · simp only [StepRes.ok.injEq] at h
            obtain ⟨-, rfl⟩ := Registers.write_ok hw
            obtain ⟨-, rfl⟩ := Registers.write_ok hw2
            exact ⟨Int.tdiv v1 v2, Int.tmod v1 v2, h.symm⟩

/-- A successful Cmp only rewrites the two flags. -/
theorem Runtime.perform_cmp_ok {rt : Runtime} {s1 s2 : Nat}
    {rt2 : Runtime} (h : rt.perform_cmp s1 s2 = .ok rt2) :
    ∃ z c, rt2 = { rt with flag_zero := z, flag_carry := c } := by
  unfold Runtime.perform_cmp at h
  rcases hp : pair_result (rt.registers.read s1) (rt.registers.read s2)
    with e1 | v <;> rw [hp] at h <;> dsimp only at h
  · simp at h
  · obtain ⟨v1, v2⟩ := v
    dsimp only at h
    simp only [StepRes.ok.injEq] at h
    exact ⟨decide (v1 = v2), decide (v1 < v2), h.symm⟩

/-- A successful Jmp sets the IP to the value read from its source register
and changes nothing else. -/
theorem Runtime.perform_jmp_ok {rt : Runtime} {s : Nat}
    {rt2 : Runtime} (h : rt.perform_jmp s = .ok rt2) :
    ∃ v, rt.registers.read s = .ok v ∧
      rt2 = { rt with registers :=
        { rt.registers with instr_pointer := v } } := by
  unfold Runtime.perform_jmp at h
  rcases hr : rt.registers.read s with e1 | v <;> rw [hr] at h <;>
    dsimp only at h
  · simp at h
  · simp only [StepRes.ok.injEq] at h
    exact ⟨v, rfl, h.symm⟩

/-- Jz with a clear zero flag succeeds without touching anything. -/
theorem Runtime.perform_jz_nottaken {rt : Runtime} (s : Nat)
    (hf : rt.flag_zero = false) : rt.perform_jz s = .ok rt := by
  simp [Runtime.perform_jz, hf]

/-- Jnz with a set zero flag succeeds without touching anything. -/
theorem Runtime.perform_jnz_nottaken {rt : Runtime} (s : Nat)
    (hf : rt.flag_zero = true) : rt.perform_jnz s = .ok rt := by
  simp [Runtime.perform_jnz, hf]

/-- Jgt with a set carry flag succeeds without touching anything. -/
theorem Runtime.perform_jgt_nottaken {rt : Runtime} (s : Nat)
    (hf : rt.flag_carry = true) : rt.perform_jgt s = .ok rt := by
  simp [Runtime.perform_jgt, hf]

/-- Jlt with a clear carry flag succeeds without touching anything. -/
theorem Runtime.perform_jlt_nottaken {rt : Runtime} (s : Nat)
    (hf : rt.flag_carry = false) : rt.perform_jlt s = .ok rt := by
  simp [Runtime.perform_jlt, hf]

/-- A successful LoadMem writes some value to its destination register and
changes nothing else. -/
theorem Runtime.perform_load_mem_ok {rt : Runtime} {a : Word} {d : Nat}
    {rt2 : Runtime} (h : rt.perform_load_mem a d = .ok rt2) :
    ∃ x, d ≤ 3 ∧ rt2 = { rt with registers := rt.registers.set d x } := by
  unfold Runtime.perform_load_mem at h
  rcases hr : rt.memory.read a with e1 | v <;> rw [hr] at h <;> dsimp only at h
  · simp at h
  · rcases hw : rt.registers.write d v with e1 | regs <;> rw [hw] at h <;>
      dsimp only at h
    · simp at h
    · simp only [StepRes.ok.injEq] at h
      obtain ⟨hle, rfl⟩ := Registers.write_ok hw
      exact ⟨v, hle, h.symm⟩

/-- A successful StoreMem only replaces the memory. -/
theorem Runtime.perform_store_mem_ok {rt : Runtime} {s : Nat} {a : Word}
    {rt2 : Runtime} (h : rt.perform_store_mem s a = .ok rt2) :
    ∃ m, rt2 = { rt with memory := m } := by
  unfold Runtime.perform_store_mem at h
  rcases hr : rt.registers.read s with e1 | v <;> rw [hr] at h <;>
    dsimp only at h
  · simp at h
  · rcases hw : rt.memory.write a v with e1 | m <;> rw [hw] at h <;>
      dsimp only at h
    · simp at h
    · simp only [StepRes.ok.injEq] at h
      exact ⟨m, h.symm⟩

/-!  Steps of the run loop.  -/

/-- Replacing the stored IP read does not affect the data registers. -/
theorem Registers.read_ip_update (regs : Registers) (p : Word) {j : Nat}
    (hj : j ≤ 3) :
    Registers.read { regs with instr_pointer := p } j = regs.read j := by
  rcases j with _ | _ | _ | _ | j
  · rfl
  · rfl
  · rfl
  · rfl
  · exact absurd hj (by omega)

/-- A step whose handler succeeds yields true and the handler's state. -/
theorem Runtime.perform_next_of_ok {rt rt1 rt2 : Runtime} {w : Word}
    (hc : rt.consume_next_instr = some (w, rt1))
    (he : rt1.execInstr w = .ok rt2) :
    rt.perform_next_instr = some (true, rt2) := by
  unfold Runtime.perform_next_instr
  rw [hc]
  dsimp only
  rw [he]

/-- A step whose handler fails yields false (the `.is_ok()` collapse) and the
handler's state; the error itself is dropped. -/
theorem Runtime.perform_next_of_err {rt rt1 rt2 : Runtime} {w : Word}
    {e : Error} (hc : rt.consume_next_instr = some (w, rt1))
    (he : rt1.execInstr w = .err e rt2) :
    rt.perform_next_instr = some (false, rt2) := by
  unfold Runtime.perform_next_instr
  rw [hc]
  dsimp only
  rw [he]

/-- A step that dispatches Halt yields false. -/
theorem Runtime.perform_next_of_halted {rt rt1 rt2 : Runtime} {w : Word}
    (hc : rt.consume_next_instr = some (w, rt1))
    (he : rt1.execInstr w = .halted rt2) :
    rt.perform_next_instr = some (false, rt2) := by
  unfold Runtime.perform_next_instr
  rw [hc]
  dsimp only
  rw [he]

/-- One unfolding of the while loop of Runtime::run. -/
theorem runFuel_succ (fuel : Nat) (rt : Runtime) :
    runFuel (fuel + 1) rt =
      if rt.running then
        match rt.perform_next_instr with
        | none => .panicked
        | some (b, rt1) => runFuel fuel { rt1 with running := b }
      else .done rt := rfl

/-- A loop iteration on a running engine. -/
theorem runFuel_step {rt : Runtime} (fuel : Nat) {b : Bool} {rt1 : Runtime}
    (hrun : rt.running = true)
    (hstep : rt.perform_next_instr = some (b, rt1)) :
    runFuel (fuel + 1) rt = runFuel fuel { rt1 with running := b } := by
  rw [runFuel_succ, if_pos hrun, hstep]

/-- The loop exits on an engine whose running flag is down. -/
theorem runFuel_stop {rt : Runtime} (fuel : Nat) (hrun : rt.running = false) :
    runFuel (fuel + 1) rt = .done rt := by
  rw [runFuel_succ, if_neg]
  simp [hrun]

/-!  Claim theorems.  -/

set_option maxRecDepth 10000 in
/-- C1, counterexample: a builder-default engine loaded with the single
unassigned-opcode word 17 executes an Illegal instruction (whose handler
fails with IllegalOpcode — runTrace records the dropped error), yet run()
returns normally, exactly as it would after a Halt; no Halt was reached. -/
theorem run_returns_normally_on_error_cex :
    Instruction.fromWord 17 = .Illegal ∧
    (mkRuntime [17]).map (fun rt => (Runtime.run 5 rt).isDone) = some true ∧
    (mkRuntime [17]).map
        (fun rt => (runTrace 5 { rt with running := true }).errOf)
      = some (some (.IllegalOpcode 0 1)) := by
  refine ⟨by decide, by decide, by decide⟩

/-- C1, amended: run() returns normally (its Rust signature is `()`) both
when a Halt executes and when a handler fails with any error; the failing
step merely drops the running flag, and the error value is discarded by the
`.is_ok()` collapse in perform_next_instr, never surfacing to the caller. -/
theorem run_returns_normally_on_error_or_halt (rt : Runtime) (w : Word)
    (rt1 rt2 : Runtime) (e : Error) (fuel : Nat)
    (hc : Runtime.consume_next_instr { rt with running := true }
      = some (w, rt1))
    (hstop : rt1.execInstr w = .err e rt2 ∨ rt1.execInstr w = .halted rt2) :
    Runtime.run (fuel + 2) rt = .done { rt2 with running := false } := by
  unfold Runtime.run
  have hstep : Runtime.perform_next_instr { rt with running := true }
      = some (false, rt2) := by
    rcases hstop with he | hh
    · exact Runtime.perform_next_of_err hc he
    · exact Runtime.perform_next_of_halted hc hh
  rw [show fuel + 2 = fuel + 1 + 1 from rfl]
  rw [runFuel_step (fuel + 1) rfl hstep]
  exact runFuel_stop fuel rfl

/-- C1, witness of the amended theorem at the illegal-word engine rtIll. -/
theorem run_returns_normally_on_error_or_halt_witness :
    Runtime.run 2 rtIll = .done { rtIllR1 with running := false } :=
  run_returns_normally_on_error_or_halt rtIll 17 rtIllR1 rtIllR1
    (.IllegalOpcode 0 1) 0 (by decide) (Or.inl (by decide))

/-- C2, counterexample: for the illegal word 17 at address 0, the error
payload carries instr_pointer 1 — the post-increment IP, not the
pre-increment address 0 — and its instruction field holds the word 0 read
from address 1, not the word 17 that was fetched. -/
theorem error_payload_preincrement_cex :
    Runtime.consume_next_instr rtIll = some (17, rtIll1) ∧
    Runtime.execInstr rtIll1 17 = .err (.IllegalOpcode 0 1) rtIll1 ∧
    (Error.IllegalOpcode 0 1).ip ≠ rtIll.registers.instr_pointer ∧
    ((0 : Word) ≠ 17) := by
  refine ⟨by decide, by decide, by decide, by decide⟩

/-- C2, amended: every error produced while executing an instruction carries
the post-increment IP (the fetch address plus one, which is also what the
engine's IP register holds at that moment); an Illegal instruction fails
with IllegalOpcode whose instruction field is the word freshly read from
that post-increment address, not the fetched word. -/
theorem error_payload_postincrement (rt : Runtime) (w : Word)
    (rt1 rt2 : Runtime) (e : Error)
    (hc : rt.consume_next_instr = some (w, rt1))
    (he : rt1.execInstr w = .err e rt2) :
    e.ip = rt1.registers.instr_pointer ∧
    e.ip = wrap64 (rt.registers.instr_pointer + 1) ∧
    ∀ w2, Instruction.fromWord w = .Illegal →
      rt1.memory.read rt1.registers.instr_pointer = .ok w2 →
      e = .IllegalOpcode w2 rt1.registers.instr_pointer := by
  have hip := Runtime.execInstr_err_ip he
  obtain ⟨hr, hshape⟩ := Runtime.consume_ok hc
  refine ⟨hip, ?_, ?_⟩
  · rw [hip, hshape]
  · intro w2 hi hrd
    rw [Runtime.execInstr_illegal _ hi] at he
    exact (Runtime.handle_illegal_spec he).2.2 w2 hrd

/-- C2, witness of the amended theorem at the illegal-word engine rtIll. -/
theorem error_payload_postincrement_witness :
    (Error.IllegalOpcode 0 1).ip = rtIll1.registers.instr_pointer ∧
    (Error.IllegalOpcode 0 1).ip
      = wrap64 (rtIll.registers.instr_pointer + 1) ∧
    ∀ w2, Instruction.fromWord 17 = .Illegal →
      rtIll1.memory.read rtIll1.registers.instr_pointer = .ok w2 →
      (Error.IllegalOpcode 0 1) = .IllegalOpcode w2
        rtIll1.registers.instr_pointer :=
  error_payload_postincrement rtIll 17 rtIll1 rtIll1 (.IllegalOpcode 0 1)
    (by decide) (by decide)

/-- C3: decoding the word 33554447 (opcode 15, operand region 0x8000). The
unsigned 27-bit slice at offset 0 of the operand region is 32768, but the
decoder runs the operand region through an `as i16` cast, so the produced
LoadMem carries src_addr = -32768 — contradicting both the claim and the
function's own 27-bit layout comment (the code carries a TODO admitting the
missing bit mask). dest_reg (offset 27 narrowed to 8 bits) is 0 as claimed. -/
theorem loadmem_src_addr_i16_cast :
    (Int.shiftRight (33554447 : Word) 10) % 2 ^ 27 = 32768 ∧
    Instruction.fromWord 33554447 = .LoadMem (-32768) 0 ∧
    ((-32768 : Word) ≠ 32768) := by
  refine ⟨by decide, by decide, by decide⟩

/-- C4, counterexample: on a two-word memory, executing LoadMem at the
out-of-range address 2 (or the negative address -1) and StoreMem at address
2 panics — the handlers `.unwrap()` the memory result — instead of
returning the InvalidMemoryAddress error the claim promises. -/
theorem loadmem_oob_panics_cex :
    Runtime.perform_load_mem rtTwo 2 0 = .panic ∧
    Runtime.perform_load_mem rtTwo (-1) 0 = .panic ∧
    Runtime.perform_store_mem rtTwo 0 2 = .panic := by
  refine ⟨by decide, by decide, by decide⟩

/-- C4, amended: the memory component's read and write themselves return
InvalidAddress carrying the requested address and the length upper bound for
every negative or too-large address (and produce no modified memory), but
the LoadMem and StoreMem handlers unwrap those results, so at the
instruction level an out-of-range access panics rather than surfacing the
error. -/
theorem memory_oob_error_handlers_panic (rt : Runtime) (address v : Word)
    (src_reg dest_reg : Nat) (w : Word)
    (h : address < 0 ∨ rt.memory.buffer.length ≤ address.toNat)
    (hr : rt.registers.read src_reg = .ok w) :
    rt.memory.read address
      = .error (.InvalidAddress address rt.memory.buffer.length) ∧
    rt.memory.write address v
      = .error (.InvalidAddress address rt.memory.buffer.length) ∧
    rt.perform_load_mem address dest_reg = .panic ∧
    rt.perform_store_mem src_reg address = .panic := by
  have hre := Memory.read_eq rt.memory address
  have hwe := Memory.write_eq rt.memory address v
  rw [if_pos h] at hre hwe
  refine ⟨hre, hwe, ?_, ?_⟩
  · unfold Runtime.perform_load_mem
    rw [hre]
  · have hwe2 := Memory.write_eq rt.memory address w
    rw [if_pos h] at hwe2
    unfold Runtime.perform_store_mem
    rw [hr]
    dsimp only
    rw [hwe2]

/-- C4, witness of the amended theorem on the two-word engine at address 2. -/
theorem memory_oob_error_handlers_panic_witness :
    ((2 : Word) < 0 ∨ rtTwo.memory.buffer.length ≤ (2 : Word).toNat) ∧
    (rtTwo.registers.read 0 = .ok 0) ∧
    (rtTwo.memory.read 2
        = .error (.InvalidAddress 2 rtTwo.memory.buffer.length) ∧
      rtTwo.memory.write 2 7
        = .error (.InvalidAddress 2 rtTwo.memory.buffer.length) ∧
      rtTwo.perform_load_mem 2 1 = .panic ∧
      rtTwo.perform_store_mem 0 2 = .panic) :=
  ⟨by decide, by decide,
    memory_oob_error_handlers_panic rtTwo 2 7 0 1 0 (by decide) (by decide)⟩

/-- C5, counterexample: with a valid nonzero divisor -1 and dividend equal
to the i64 minimum, Div does not write the quotient — the division
overflows and the code panics (Rust panics on i64::MIN / -1 in every build
profile), contradicting the claim that every nonzero divisor leads to both
writes. -/
theorem div_min_overflow_cex :
    rtDivMin.registers.read 1 = .ok (-1) ∧ ((-1 : Word) ≠ 0) ∧
    Runtime.perform_div rtDivMin 0 1 2 3 = .panic := by
  refine ⟨by decide, by decide, by decide⟩

/-- The truncated remainder of a nonpositive dividend is nonpositive. -/
theorem tmod_nonpos_of_nonpos {a : Int} (b : Int) (h : a ≤ 0) :
    a.tmod b ≤ 0 := by
  have hneg : (-a).tmod b = -(a.tmod b) := by
    rw [Int.tmod_def, Int.tmod_def, Int.neg_tdiv]
    ring
  have h0 : 0 ≤ (-a).tmod b := Int.tmod_nonneg b (by omega)
  omega

/-- C5, amended: reading a zero divisor fails with DivisionByZero stamped
with the current IP and leaves the whole engine state (both destinations
included) unchanged; with a nonzero divisor — except the single overflowing
pair dividend = i64 minimum, divisor = -1, on which the code panics — the
handler writes the truncated quotient to quot_dest and then the remainder,
whose sign follows the dividend, to rem_dest, both writes completing before
success is returned. -/
theorem div_zero_fails_nonzero_writes (rt : Runtime)
    (src1 src2 quot_dest rem_dest : Nat) (v1 v2 : Word)
    (h1 : rt.registers.read src1 = .ok v1)
    (h2 : rt.registers.read src2 = .ok v2)
    (hq : quot_dest ≤ 3) (hr : rem_dest ≤ 3) :
    (v2 = 0 → rt.perform_div src1 src2 quot_dest rem_dest =
      .err (.DivisionByZero rt.registers.instr_pointer) rt) ∧
    (v2 ≠ 0 → ¬(v1 = -(2 ^ 63) ∧ v2 = -1) →
      rt.perform_div src1 src2 quot_dest rem_dest =
        .ok { rt with
              registers := (rt.registers.set quot_dest
                (Int.tdiv v1 v2)).set rem_dest (Int.tmod v1 v2) } ∧
      (0 ≤ v1 → 0 ≤ Int.tmod v1 v2) ∧
      (v1 ≤ 0 → Int.tmod v1 v2 ≤ 0)) ∧
    (v1 = -(2 ^ 63) ∧ v2 = -1 →
      rt.perform_div src1 src2 quot_dest rem_dest = .panic) := by
  have hp : pair_result (rt.registers.read src1) (rt.registers.read src2)
      = .ok (v1, v2) := by
    rw [h1, h2]
    rfl
  refine ⟨?_, ?_, ?_⟩
  · intro h0
    unfold Runtime.perform_div
    rw [hp]
    dsimp only
    rw [if_pos h0]
  · intro h0 hov
    refine ⟨?_, fun hv => Int.tmod_nonneg v2 hv,
      fun hv => tmod_nonpos_of_nonpos v2 hv⟩
    unfold Runtime.perform_div
    rw [hp]
    dsimp only
    rw [if_neg h0, if_neg hov, Registers.write_ok_of_le _ hq]
    dsimp only
    rw [Registers.write_ok_of_le _ hr]
  · intro hov
    unfold Runtime.perform_div
    rw [hp]
    dsimp only
    rw [if_neg (by simp [hov.2]), if_pos hov]

/-- C5, witness of the amended theorem: dividing d0 = 7 by d1 = 2 with
quotient to d2 and remainder to d3. -/
theorem div_zero_fails_nonzero_writes_witness :
    rtDiv7.registers.read 0 = .ok 7 ∧ rtDiv7.registers.read 1 = .ok 2 ∧
    (2 : Nat) ≤ 3 ∧ (3 : Nat) ≤ 3 ∧
    (((2 : Word) = 0 → Runtime.perform_div rtDiv7 0 1 2 3 =
        .err (.DivisionByZero rtDiv7.registers.instr_pointer) rtDiv7) ∧
      ((2 : Word) ≠ 0 → ¬((7 : Word) = -(2 ^ 63) ∧ (2 : Word) = -1) →
        Runtime.perform_div rtDiv7 0 1 2 3 =
          .ok { rtDiv7 with
                registers := (rtDiv7.registers.set 2
                  (Int.tdiv 7 2)).set 3 (Int.tmod 7 2) } ∧
        (0 ≤ (7 : Word) → 0 ≤ Int.tmod 7 2) ∧
        ((7 : Word) ≤ 0 → Int.tmod 7 2 ≤ 0)) ∧
      ((7 : Word) = -(2 ^ 63) ∧ (2 : Word) = -1 →
        Runtime.perform_div rtDiv7 0 1 2 3 = .panic)) :=
  ⟨by decide, by decide, by decide, by decide,
    div_zero_fails_nonzero_writes rtDiv7 0 1 2 3 7 2 (by decide) (by decide)
      (by decide) (by decide)⟩

/-- C6: Cmp on readable source registers holding a and b overwrites both
flags, setting zero to the truth value of a = b and carry to that of a < b,
whatever the flags held before; in the strictly-greater case both end up
false. -/
theorem cmp_sets_zero_and_carry (rt : Runtime) (src1 src2 : Nat)
    (v1 v2 : Word)
    (h1 : rt.registers.read src1 = .ok v1)
    (h2 : rt.registers.read src2 = .ok v2) :
    rt.perform_cmp src1 src2 =
      .ok { rt with flag_zero := decide (v1 = v2),
                    flag_carry := decide (v1 < v2) } ∧
    (v2 < v1 → rt.perform_cmp src1 src2 =
      .ok { rt with flag_zero := false, flag_carry := false }) := by
  have hp : pair_result (rt.registers.read src1) (rt.registers.read src2)
      = .ok (v1, v2) := by
    rw [h1, h2]
    rfl
  have hbase : rt.perform_cmp src1 src2 =
      .ok { rt with flag_zero := decide (v1 = v2),
                    flag_carry := decide (v1 < v2) } := by
    unfold Runtime.perform_cmp
    rw [hp]
  refine ⟨hbase, ?_⟩
  intro hlt
  rw [hbase]
  have hz : decide (v1 = v2) = false := by
    simp only [decide_eq_false_iff_not]
    exact ne_of_gt hlt
  have hc : decide (v1 < v2) = false := by
    simp only [decide_eq_false_iff_not]
    exact not_lt.mpr (le_of_lt hlt)
  rw [hz, hc]

/-- C6, witness: comparing d0 = 5 with d1 = 3 (the greater-than case). -/
theorem cmp_sets_zero_and_carry_witness :
    rtCmp.registers.read 0 = .ok 5 ∧ rtCmp.registers.read 1 = .ok 3 ∧
    (Runtime.perform_cmp rtCmp 0 1 =
        .ok { rtCmp with flag_zero := decide ((5 : Word) = 3),
                         flag_carry := decide ((5 : Word) < 3) } ∧
      ((3 : Word) < 5 → Runtime.perform_cmp rtCmp 0 1 =
        .ok { rtCmp with flag_zero := false, flag_carry := false })) :=
  ⟨by decide, by decide,
    cmp_sets_zero_and_carry rtCmp 0 1 5 3 (by decide) (by decide)⟩

/-- C7: in every step the IP is incremented at the fetch, before the handler
runs: after a successful fetch the engine's IP is the fetch address plus one;
a successful Jmp then overwrites it with the value read from its source
register; and every successful step whose instruction is not a taken jump
ends with the IP equal to the pre-fetch value plus one. -/
theorem ip_increment_and_jump (rt : Runtime) (w : Word) (rt1 rt2 : Runtime)
    (hlen : rt.memory.buffer.length < 2 ^ 63)
    (hc : rt.consume_next_instr = some (w, rt1)) :
    rt1.registers.instr_pointer = rt.registers.instr_pointer + 1 ∧
    (∀ src v, Instruction.fromWord w = .Jmp src →
      rt1.registers.read src = .ok v → rt1.execInstr w = .ok rt2 →
      rt2.registers.instr_pointer = v) ∧
    (takenJump (Instruction.fromWord w) rt1 = false →
      rt1.execInstr w = .ok rt2 →
      rt2.registers.instr_pointer = rt.registers.instr_pointer + 1) := by
  have hsucc := Runtime.consume_ip_succ hlen hc
  refine ⟨hsucc, ?_, ?_⟩
  · intro src v hi hrd hok
    rw [Runtime.execInstr_jmp _ hi] at hok
    obtain ⟨v2, hrd2, rfl⟩ := Runtime.perform_jmp_ok hok
    rw [hrd] at hrd2
    cases hrd2
    rfl
  · intro htj hok
    rw [← hsucc]
    cases hi : Instruction.fromWord w
    case Illegal =>
      rw [Runtime.execInstr_illegal _ hi] at hok
      exact absurd hok Runtime.handle_illegal_ne_ok
    case Halt =>
      rw [Runtime.execInstr_halt _ hi] at hok
      simp at hok
    case Load v d =>
      rw [Runtime.execInstr_load _ hi] at hok
      obtain ⟨-, rfl⟩ := Runtime.perform_load_ok hok
      exact Registers.set_ip rt1.registers d v
    case Copy s d =>
      rw [Runtime.execInstr_copy _ hi] at hok
      obtain ⟨x, -, rfl⟩ := Runtime.perform_copy_ok hok
      exact Registers.set_ip rt1.registers d x
    case Add s1 s2 d =>
      rw [Runtime.execInstr_add _ hi] at hok
      obtain ⟨x, -, rfl⟩ := Runtime.perform_add_ok hok
      exact Registers.set_ip rt1.registers d x
    case Sub s1 s2 d =>
      rw [Runtime.execInstr_sub _ hi] at hok
      obtain ⟨x, -, rfl⟩ := Runtime.perform_sub_ok hok
      exact Registers.set_ip rt1.registers d x
    case Mult s1 s2 d =>
      rw [Runtime.execInstr_mult _ hi] at hok
      obtain ⟨x, -, rfl⟩ := Runtime.perform_mult_ok hok
      exact Registers.set_ip rt1.registers d x
    case Div s1 s2 qd rd =>
      rw [Runtime.execInstr_div _ hi] at hok
      obtain ⟨q, r, rfl⟩ := Runtime.perform_div_ok hok
      show ((rt1.registers.set qd q).set rd r).instr_pointer
        = rt1.registers.instr_pointer
      rw [Registers.set_ip, Registers.set_ip]
    case Cmp s1 s2 =>
      rw [Runtime.execInstr_cmp _ hi] at hok
      obtain ⟨z, c, rfl⟩ := Runtime.perform_cmp_ok hok
      rfl
    case Jmp s =>
      rw [hi] at htj
      simp [takenJump] at htj
    case Jz s =>
      rw [hi] at htj
      simp only [takenJump] at htj
      rw [Runtime.execInstr_jz _ hi, Runtime.perform_jz_nottaken s htj] at hok
      cases hok
      rfl
    case Jnz s =>
      rw [hi] at htj
      simp only [takenJump, Bool.not_eq_false'] at htj
      rw [Runtime.execInstr_jnz _ hi,
        Runtime.perform_jnz_nottaken s htj] at hok
      cases hok
      rfl
    case Jgt s =>
      rw [hi] at htj
      simp only [takenJump, Bool.not_eq_false'] at htj
      rw [Runtime.execInstr_jgt _ hi,
        Runtime.perform_jgt_nottaken s htj] at hok
      cases hok
      rfl
    case Jlt s =>
      rw [hi] at htj
      simp only [takenJump] at htj
      rw [Runtime.execInstr_jlt _ hi,
        Runtime.perform_jlt_nottaken s htj] at hok
      cases hok
      rfl
    case Inc d =>
      rw [Runtime.execInstr_inc _ hi] at hok
      obtain ⟨x, -, rfl⟩ := Runtime.perform_inc_ok hok
      exact Registers.set_ip rt1.registers d x
    case Dec d =>
      rw [Runtime.execInstr_dec _ hi] at hok
      obtain ⟨x, -, rfl⟩ := Runtime.perform_dec_ok hok
      exact Registers.set_ip rt1.registers d x
    case LoadMem a d =>
      rw [Runtime.execInstr_load_mem _ hi] at hok
      obtain ⟨x, -, rfl⟩ := Runtime.perform_load_mem_ok hok
      exact Registers.set_ip rt1.registers d x
    case StoreMem s a =>
      rw [Runtime.execInstr_store_mem _ hi] at hok
      obtain ⟨m, rfl⟩ := Runtime.perform_store_mem_ok hok
      rfl

/-- C7, witness: the load-13 engine; its single instruction is not a jump,
and the step ends with IP 1 = 0 + 1. -/
theorem ip_increment_and_jump_witness :
    rtLoad.memory.buffer.length < 2 ^ 63 ∧
    Runtime.consume_next_instr rtLoad = some (13313, rtLoad1) ∧
    (rtLoad1.registers.instr_pointer = rtLoad.registers.instr_pointer + 1 ∧
      (∀ src v, Instruction.fromWord 13313 = .Jmp src →
        rtLoad1.registers.read src = .ok v →
        rtLoad1.execInstr 13313 = .ok rtLoad2 →
        rtLoad2.registers.instr_pointer = v) ∧
      (takenJump (Instruction.fromWord 13313) rtLoad1 = false →
        rtLoad1.execInstr 13313 = .ok rtLoad2 →
        rtLoad2.registers.instr_pointer
          = rtLoad.registers.instr_pointer + 1)) :=
  ⟨by decide, by decide,
    ip_increment_and_jump rtLoad 13313 rtLoad1 rtLoad2 (by decide)
      (by decide)⟩

/-- C8: a successful step executing Load, Copy, Inc, Dec, Add, Sub or Mult
(the shapes with a single destination register, destOf) modifies only that
destination: memory, both flags, the running flag, and every other data
register are unchanged, and the IP holds exactly the pre-fetch value plus
one from the fetch auto-increment. -/
theorem single_dest_frame (rt : Runtime) (w : Word) (rt1 rt2 : Runtime)
    (d : Nat) (hlen : rt.memory.buffer.length < 2 ^ 63)
    (hc : rt.consume_next_instr = some (w, rt1))
    (hd : (Instruction.fromWord w).destOf = some d)
    (hok : rt1.execInstr w = .ok rt2) :
    rt2.memory = rt.memory ∧ rt2.flag_zero = rt.flag_zero ∧
    rt2.flag_carry = rt.flag_carry ∧ rt2.running = rt.running ∧
    rt2.registers.instr_pointer = rt.registers.instr_pointer + 1 ∧
    ∀ j, j ≤ 3 → j ≠ d → rt2.registers.read j = rt.registers.read j := by
  have hsucc := Runtime.consume_ip_succ hlen hc
  obtain ⟨hr, hshape⟩ := Runtime.consume_ok hc
  have hframe : ∀ x : Word,
      rt2 = { rt1 with registers := rt1.registers.set d x } →
      rt2.memory = rt.memory ∧ rt2.flag_zero = rt.flag_zero ∧
      rt2.flag_carry = rt.flag_carry ∧ rt2.running = rt.running ∧
      rt2.registers.instr_pointer = rt.registers.instr_pointer + 1 ∧
      ∀ j, j ≤ 3 → j ≠ d → rt2.registers.read j = rt.registers.read j := by
    intro x h2
    subst h2
    subst hshape
    refine ⟨rfl, rfl, rfl, rfl, ?_, ?_⟩
    · rw [show ({ rt with registers :=
          { rt.registers with
            instr_pointer := wrap64 (rt.registers.instr_pointer + 1) } }
            : Runtime).registers.set d x
          = Registers.set
            { rt.registers with
              instr_pointer := wrap64 (rt.registers.instr_pointer + 1) } d x
          from rfl, Registers.set_ip]
      exact hsucc
    · intro j hj hne
      rw [show ({ rt with registers :=
          { rt.registers with
            instr_pointer := wrap64 (rt.registers.instr_pointer + 1) } }
            : Runtime).registers.set d x
          = Registers.set
            { rt.registers with
              instr_pointer := wrap64 (rt.registers.instr_pointer + 1) } d x
          from rfl, Registers.set_read_ne _ x hj hne]
      exact Registers.read_ip_update rt.registers _ hj
  cases hi : Instruction.fromWord w <;> rw [hi] at hd <;>
    simp only [Instruction.destOf, Option.some.injEq, reduceCtorEq] at hd
  case Load v d0 =>
    subst hd
    rw [Runtime.execInstr_load _ hi] at hok
    obtain ⟨-, h2⟩ := Runtime.perform_load_ok hok
    exact hframe v h2
  case Copy s d0 =>
    subst hd
    rw [Runtime.execInstr_copy _ hi] at hok
    obtain ⟨x, -, h2⟩ := Runtime.perform_copy_ok hok
    exact hframe x h2
  case Add s1 s2 d0 =>
    subst hd
    rw [Runtime.execInstr_add _ hi] at hok
    obtain ⟨x, -, h2⟩ := Runtime.perform_add_ok hok
    exact hframe x h2
  case Sub s1 s2 d0 =>
    subst hd
    rw [Runtime.execInstr_sub _ hi] at hok
    obtain ⟨x, -, h2⟩ := Runtime.perform_sub_ok hok
    exact hframe x h2
  case Mult s1 s2 d0 =>
    subst hd
    rw [Runtime.execInstr_mult _ hi] at hok
    obtain ⟨x, -, h2⟩ := Runtime.perform_mult_ok hok
    exact hframe x h2
  case Inc d0 =>
    subst hd
    rw [Runtime.execInstr_inc _ hi] at hok
    obtain ⟨x, -, h2⟩ := Runtime.perform_inc_ok hok
    exact hframe x h2
  case Dec d0 =>
    subst hd
    rw [Runtime.execInstr_dec _ hi] at hok
    obtain ⟨x, -, h2⟩ := Runtime.perform_dec_ok hok
    exact hframe x h2

/-- C8, witness: the load-13 engine writes d0 only; d1..d3, memory, flags
and the running bit survive, and the IP ends at 1. -/
theorem single_dest_frame_witness :
    rtLoad.memory.buffer.length < 2 ^ 63 ∧
    Runtime.consume_next_instr rtLoad = some (13313, rtLoad1) ∧
    (Instruction.fromWord 13313).destOf = some 0 ∧
    rtLoad1.execInstr 13313 = .ok rtLoad2 ∧
    (rtLoad2.memory = rtLoad.memory ∧
      rtLoad2.flag_zero = rtLoad.flag_zero ∧
      rtLoad2.flag_carry = rtLoad.flag_carry ∧
      rtLoad2.running = rtLoad.running ∧
      rtLoad2.registers.instr_pointer
        = rtLoad.registers.instr_pointer + 1 ∧
      ∀ j, j ≤ 3 → j ≠ 0 →
        rtLoad2.registers.read j = rtLoad.registers.read j) :=
  ⟨by decide, by decide, by decide, by decide,
    single_dest_frame rtLoad 13313 rtLoad1 rtLoad2 0 (by decide) (by decide)
      (by decide) (by decide)⟩

set_option maxRecDepth 100000 in
/-- C9: the 11-word Euclidean GCD program of scenario 6, installed by the
default builder (262144-word default memory, zeroed registers and flags),
stops because a Halt instruction executes — the trace observer records a
Halt stop with D0 = 1 and the IP one past the halt word — and run() returns
normally. -/
theorem gcd_program_halts_with_d0_one :
    (mkRuntime gcdProgram).map
        (fun rt =>
          ((runTrace 60 { rt with running := true }).haltData0,
            (runTrace 60 { rt with running := true }).haltIp))
      = some (some 1, some 11) ∧
    (mkRuntime gcdProgram).map (fun rt => (Runtime.run 60 rt).isDone)
      = some true := by
  refine ⟨by decide, by decide⟩

/-- C10: a conditional jump whose condition is false (Jz with zero clear,
Jnz with zero set, Jgt with carry set, Jlt with carry clear) succeeds for
every source operand, including invalid register indices of 5 or more — the
handler returns Ok without reading the register — and the step changes
nothing but the fetch auto-increment of the IP. -/
theorem condjump_false_skips_register_read (rt : Runtime) (w : Word)
    (rt1 : Runtime) (src : Nat)
    (hc : rt.consume_next_instr = some (w, rt1))
    (hcase :
      (Instruction.fromWord w = .Jz src ∧ rt1.flag_zero = false) ∨
      (Instruction.fromWord w = .Jnz src ∧ rt1.flag_zero = true) ∨
      (Instruction.fromWord w = .Jgt src ∧ rt1.flag_carry = true) ∨
      (Instruction.fromWord w = .Jlt src ∧ rt1.flag_carry = false)) :
    rt.perform_next_instr = some (true, rt1) ∧
    rt1.memory = rt.memory ∧ rt1.flag_zero = rt.flag_zero ∧
    rt1.flag_carry = rt.flag_carry ∧ rt1.running = rt.running ∧
    rt1.registers.data0 = rt.registers.data0 ∧
    rt1.registers.data1 = rt.registers.data1 ∧
    rt1.registers.data2 = rt.registers.data2 ∧
    rt1.registers.data3 = rt.registers.data3 ∧
    rt1.registers.instr_pointer
      = wrap64 (rt.registers.instr_pointer + 1) := by
  obtain ⟨hr, hshape⟩ := Runtime.consume_ok hc
  have hok : rt1.execInstr w = .ok rt1 := by
    rcases hcase with ⟨hi, hf⟩ | ⟨hi, hf⟩ | ⟨hi, hf⟩ | ⟨hi, hf⟩
    · rw [Runtime.execInstr_jz _ hi]
      exact Runtime.perform_jz_nottaken src hf
    · rw [Runtime.execInstr_jnz _ hi]
      exact Runtime.perform_jnz_nottaken src hf
    · rw [Runtime.execInstr_jgt _ hi]
      exact Runtime.perform_jgt_nottaken src hf
    · rw [Runtime.execInstr_jlt _ hi]
      exact Runtime.perform_jlt_nottaken src hf
  have hstep := Runtime.perform_next_of_ok hc hok
  subst hshape
  exact ⟨hstep, rfl, rfl, rfl, rfl, rfl, rfl, rfl, rfl, rfl⟩

/-- C10, witness: a jz whose source operand is the invalid register index 9,
executed with the zero flag clear: the step succeeds. -/
theorem condjump_false_skips_register_read_witness :
    Runtime.consume_next_instr rtJz = some (9223, rtJz1) ∧
    (Instruction.fromWord 9223 = .Jz 9 ∧ rtJz1.flag_zero = false) ∧
    (Runtime.perform_next_instr rtJz = some (true, rtJz1) ∧
      rtJz1.memory = rtJz.memory ∧ rtJz1.flag_zero = rtJz.flag_zero ∧
      rtJz1.flag_carry = rtJz.flag_carry ∧ rtJz1.running = rtJz.running ∧
      rtJz1.registers.data0 = rtJz.registers.data0 ∧
      rtJz1.registers.data1 = rtJz.registers.data1 ∧
      rtJz1.registers.data2 = rtJz.registers.data2 ∧
      rtJz1.registers.data3 = rtJz.registers.data3 ∧
      rtJz1.registers.instr_pointer
        = wrap64 (rtJz.registers.instr_pointer + 1)) :=
  ⟨by decide, ⟨by decide, by decide⟩,
    condjump_false_skips_register_read rtJz 9223 rtJz1 9 (by decide)
      (Or.inl ⟨by decide, by decide⟩)⟩

end Clockwork
